import Mathlib

/-!
# Register fetch and store for the i386 GNU/Hurd target (gdb/i386gnu-nat.c)

A shallow embedding of `fetch_fpregs`, `gnu_fetch_registers`,
`convert_to_env387`, `store_fpregs` and `gnu_store_registers`.

Raw blocks and the register cache are byte-addressed objects.  The calls
into the kernel and into the thread directory are outcomes handed to the
functions (`Env`); the register cache, the thread record, the
floating-point state the kernel holds for the thread and the warnings
printed so far form the `World` the functions transform.
-/

namespace I386GnuNat

/-! ## Bytes and objects -/

/-- One byte (`char`) of target or debugger memory. -/
abbrev Byte := Fin 256

/-- A byte-addressed object, or a pointer into one: offset to byte. -/
abbrev Mem := Nat → Byte

/-- The low eight bits of a number, as a byte. -/
def byte (n : Nat) : Byte := ⟨n % 256, Nat.mod_lt n (by decide)⟩

/-- The pointer `(char *) m + off`. -/
def ptr (m : Mem) (off : Nat) : Mem := fun j => m (off + j)

/-- The object `dst` after `memcpy (dst + d, src + s, n)`. -/
def memcpy (dst : Mem) (d : Nat) (src : Mem) (s : Nat) (n : Nat) : Mem :=
  fun a => if d ≤ a ∧ a < d + n then src (s + (a - d)) else dst a

/-- In C the value of `memcpy (dst, src, n)` is `dst`.  Where the call is
used as a condition in `gnu_store_registers`, `dst` is the address of a
byte of the local object `old_state`, which is not a null pointer: the
condition holds whatever the bytes are. -/
def memcpy_as_condition : Bool := true

/-- Value of the little-endian `unsigned short` at offset `o`. -/
def load16 (m : Mem) (o : Nat) : Nat := (m o).val + 256 * (m (o + 1)).val

/-- Bit pattern of the little-endian 32-bit `int` at offset `o`. -/
def load32 (m : Mem) (o : Nat) : Nat :=
  (m o).val + 256 * (m (o + 1)).val + 65536 * (m (o + 2)).val + 16777216 * (m (o + 3)).val

/-- The object after assigning `v` (truncated to 16 bits) to the
`unsigned short` at offset `o`. -/
def store16 (m : Mem) (o : Nat) (v : Nat) : Mem :=
  fun a => if a = o then byte v else if a = o + 1 then byte (v / 256) else m a

/-- Object representation of a local `long l` holding `v` (four bytes,
little-endian), addressed from `&l`. -/
def long_bytes (v : Nat) : Mem :=
  fun j => if j < 4 then byte (v / 256 ^ j) else 0

/-! ## Layout -/

/-- Modelled from the spec: Mach's `struct i386_thread_state`, the raw
general-register block with ABI-fixed offsets, is declared outside this
source file.  Its members, in declaration order. -/
inductive ThreadStateField where
  | gs | fs | es | ds | edi | esi | ebp | esp | ebx | edx | ecx | eax
  | eip | cs | efl | uesp | ss
  deriving DecidableEq, Repr

/-- Modelled from the spec: the macro `REG_OFFSET (reg)` is
`offsetof (struct i386_thread_state, reg)` for a struct declared outside
this source file; every member is a 4-byte `unsigned int`, so the offset
is four times the position and no two registers overlap. -/
def REG_OFFSET : ThreadStateField → Nat
  | .gs => 0 | .fs => 4 | .es => 8 | .ds => 12
  | .edi => 16 | .esi => 20 | .ebp => 24 | .esp => 28
  | .ebx => 32 | .edx => 36 | .ecx => 40 | .eax => 44
  | .eip => 48 | .cs => 52 | .efl => 56 | .uesp => 60 | .ss => 64

/-- The table `reg_offset[]`. -/
def reg_offset_table : List Nat :=
  [ REG_OFFSET .eax, REG_OFFSET .ecx, REG_OFFSET .edx, REG_OFFSET .ebx,
    REG_OFFSET .uesp, REG_OFFSET .ebp, REG_OFFSET .esi, REG_OFFSET .edi,
    REG_OFFSET .eip, REG_OFFSET .efl, REG_OFFSET .cs, REG_OFFSET .ss,
    REG_OFFSET .ds, REG_OFFSET .es, REG_OFFSET .fs, REG_OFFSET .gs ]

/-- The entry `reg_offset[i]`. -/
def reg_offset (i : Nat) : Nat := reg_offset_table.getD i 0

/-- The macro `REG_ADDR (state, regnum)`. -/
def REG_ADDR (state : Mem) (regnum : Nat) : Mem := ptr state (reg_offset regnum)

/-- Modelled from the spec: the general-register count belongs to the
target description, outside this source file; the spec has it equal to
the length of the table `reg_offset[]`, which has sixteen entries. -/
def NUM_GREGS : Nat := 16

/-- Modelled from the spec: the register numbers belong to the target
description, outside this source file; the eight stack slots follow the
general registers.  First floating-point stack register. -/
def FP0_REGNUM : Nat := 16
/-- Modelled from the spec: target description, outside this source
file.  Last floating-point stack register. -/
def FP7_REGNUM : Nat := 23
/-- Modelled from the spec: target description, outside this source
file; the control-register set follows the stack slots.  First
floating-point control pseudo-register. -/
def FIRST_FPU_CTRL_REGNUM : Nat := 24
/-- Modelled from the spec: target description, outside this source
file.  Control word. -/
def FCTRL_REGNUM : Nat := 24
/-- Modelled from the spec: target description, outside this source
file.  Status word. -/
def FSTAT_REGNUM : Nat := 25
/-- Modelled from the spec: target description, outside this source
file.  Tag word. -/
def FTAG_REGNUM : Nat := 26
/-- Modelled from the spec: target description, outside this source
file.  Code segment selector of the last floating-point instruction. -/
def FCS_REGNUM : Nat := 27
/-- Modelled from the spec: target description, outside this source
file.  Offset of the last floating-point instruction. -/
def FCOFF_REGNUM : Nat := 28
/-- Modelled from the spec: target description, outside this source
file.  Operand segment selector. -/
def FDS_REGNUM : Nat := 29
/-- Modelled from the spec: target description, outside this source
file.  Operand offset. -/
def FDOFF_REGNUM : Nat := 30
/-- Modelled from the spec: target description, outside this source
file.  Opcode of the last floating-point instruction. -/
def FOP_REGNUM : Nat := 31
/-- Modelled from the spec: target description, outside this source
file.  Last floating-point control pseudo-register. -/
def LAST_FPU_CTRL_REGNUM : Nat := 31

/-- Modelled from the spec: the macro `REGISTER_RAW_SIZE (n)` belongs to
the target description, outside this source file.  Four bytes for a
general register; ten bytes for a stack register (the spec's 80-bit
slots); four bytes for a control pseudo-register (the spec's full-width
values: the size of the `long` through which `fetch_fpregs` supplies the
code segment and the opcode). -/
def REGISTER_RAW_SIZE (n : Nat) : Nat :=
  if n < FP0_REGNUM then 4 else if n ≤ FP7_REGNUM then 10 else 4

/-- Modelled from the spec: the macro `REGISTER_BYTE (n)` belongs to the
target description, outside this source file.  The entries lie in
`registers[]` one after the other in index order, each at its raw size. -/
def REGISTER_BYTE (n : Nat) : Nat :=
  if n < FP0_REGNUM then 4 * n
  else if n ≤ FP7_REGNUM then 64 + 10 * (n - FP0_REGNUM)
  else 144 + 4 * (n - FIRST_FPU_CTRL_REGNUM)

/-- Offsets of the members of `struct env387` (2-byte `unsigned short`,
4-byte `unsigned long`, no padding). -/
def env387.control : Nat := 0
/-- Reserved word after `control`. -/
def env387.r0 : Nat := 2
/-- Status word. -/
def env387.status : Nat := 4
/-- Reserved word after `status`. -/
def env387.r1 : Nat := 6
/-- Tag word. -/
def env387.tag : Nat := 8
/-- Reserved word after `tag`. -/
def env387.r2 : Nat := 10
/-- Instruction pointer offset. -/
def env387.eip : Nat := 12
/-- Code segment selector. -/
def env387.code_seg : Nat := 16
/-- Opcode. -/
def env387.opcode : Nat := 18
/-- Operand pointer offset. -/
def env387.operand : Nat := 20
/-- Operand segment selector. -/
def env387.operand_seg : Nat := 24
/-- Reserved word after `operand_seg`. -/
def env387.r3 : Nat := 26
/-- Offset of `regs[i]` (`unsigned char regs[8][10]`). -/
def env387.regs (i : Nat) : Nat := 28 + 10 * i
/-- Size of the struct: `sizeof (struct env387)`. -/
def env387.size : Nat := 108

/-! ## State -/

/-- Modelled from the spec: Mach's `struct i386_float_state`, declared
outside this source file: the raw FPU block `hw_state`, read through a
`struct env387 *`, with the `initialized` flag supplied by the kernel. -/
structure i386_float_state where
  fpkind : Int
  initialized : Int
  hw_state : Mem
  exc_status : Int

/-- Modelled from the spec: `struct proc` is declared outside this source
file.  The members this file reads or writes: whether the thread is known
to be halted, whether a snapshot is held, the snapshot, and the bitmap of
fetched registers. -/
structure proc where
  aborted : Bool
  state_valid : Bool
  state : Mem
  fetched_regs : Nat

/-- Messages printed through `warning ()` and `error ()`. -/
inductive Msg where
  | fetch_no_such_thread
  | store_no_such_thread
  | couldnt_fetch_registers
  | couldnt_fetch_float
  | couldnt_store_registers
  | couldnt_store_float
  | changed (check_regno : Nat)
  | also_writing
  deriving DecidableEq, Repr

/-- What the functions act on: gdb's register cache (`registers[]`,
`register_valid[]`), the thread record, the floating-point state the
kernel holds for the thread, and the warnings printed so far. -/
structure World where
  registers : Mem
  register_valid : Nat → Int
  thread : proc
  fpu : i386_float_state
  warnings : List Msg

/-- Outcomes of the collaborators during one request:
`inf_tid_to_thread` finds the thread or not, `proc_get_state` yields a
block or a null pointer, and `thread_get_state` and `thread_set_state`
on the floating-point state succeed or fail. -/
structure Env where
  thread_found : Bool
  get_state : Option Mem
  float_get_ok : Bool
  float_set_ok : Bool

/-- How a request ends. -/
inductive Outcome where
  | returned (w : World)
  | error (m : Msg) (w : World)
  | assertion_failed (w : World)
  | undefined

/-- The call `warning (...)`. -/
def warning (w : World) (m : Msg) : World :=
  { w with warnings := w.warnings ++ [m] }

/-- Modelled from the spec: `supply_register` belongs to the register
cache, outside this source file.  A value is copied into the cache entry
at its raw size and the entry is marked valid; "no value" (a null
pointer) clears the validity of the entry. -/
def supply_register (w : World) (regno : Nat) (val : Option Mem) : World :=
  match val with
  | some v =>
    { w with
      registers := memcpy w.registers (REGISTER_BYTE regno) v 0 (REGISTER_RAW_SIZE regno)
      register_valid := Function.update w.register_valid regno 1 }
  | none =>
    { w with register_valid := Function.update w.register_valid regno 0 }

/-- Modelled from the spec: `proc_get_state` belongs to the thread
control layer, outside this source file.  On success it returns a pointer
to the thread's own snapshot `thread->state`, which then holds the block
`s` and is valid; with `will_modify` the thread has been forced to halt.
On failure it returns a null pointer and no snapshot is valid. -/
def proc_get_state (thread : proc) (will_modify : Bool) (k : Option Mem) :
    proc × Option Mem :=
  match k with
  | none => ({ thread with state_valid := false }, none)
  | some s =>
    ({ thread with state := s, state_valid := true,
                   aborted := thread.aborted || will_modify }, some s)

/-! ## fetch_fpregs -/

/-- The calls `supply_register (regno, val)` that `fetch_fpregs` makes
for a floating-point state read from the kernel, in order. -/
def fetch_fpregs_supplies (state : i386_float_state) : List (Nat × Option Mem) :=
  let ep := state.hw_state
  if state.initialized = 0 then
    (List.range' FP0_REGNUM (FP7_REGNUM + 1 - FP0_REGNUM)).map (fun i => (i, none))
    ++ (List.range' FIRST_FPU_CTRL_REGNUM
          (LAST_FPU_CTRL_REGNUM + 1 - FIRST_FPU_CTRL_REGNUM)).map (fun i => (i, none))
  else
    (List.range 8).map (fun i => (FP0_REGNUM + i, some (ptr ep (env387.regs i))))
    ++ [ (FCTRL_REGNUM, some (ptr ep env387.control)),
         (FSTAT_REGNUM, some (ptr ep env387.status)),
         (FTAG_REGNUM, some (ptr ep env387.tag)),
         (FCOFF_REGNUM, some (ptr ep env387.eip)),
         (FDS_REGNUM, some (ptr ep env387.operand_seg)),
         (FDOFF_REGNUM, some (ptr ep env387.operand)),
         (FCS_REGNUM, some (long_bytes (load16 ep env387.code_seg))),
         (FOP_REGNUM, some (long_bytes (load16 ep env387.opcode &&& ((1 <<< 11) - 1)))) ]

/-- A sequence of `supply_register` calls. -/
def supply_all (calls : List (Nat × Option Mem)) (w : World) : World :=
  calls.foldl (fun w c => supply_register w c.1 c.2) w

/-- The function `fetch_fpregs`. -/
def fetch_fpregs (e : Env) (w : World) : World :=
  if e.float_get_ok = false then
    warning w Msg.couldnt_fetch_float
  else
    supply_all (fetch_fpregs_supplies w.fpu) w

/-! ## gnu_fetch_registers -/

/-- The general-register part of `gnu_fetch_registers`: `Except.error`
is the early `return` after a failed read. -/
def fetch_gregs (e : Env) (w : World) (regno : Int) : Except World World :=
  if regno < NUM_GREGS ∨ regno = -1 then
    let r := proc_get_state w.thread false e.get_state
    let w := { w with thread := r.1 }
    match r.2 with
    | none => Except.error (warning w Msg.couldnt_fetch_registers)
    | some state =>
      if regno = -1 then
        let w := (List.range NUM_GREGS).foldl
          (fun w i => supply_register w i (some (REG_ADDR state i))) w
        Except.ok { w with thread := { w.thread with fetched_regs := 0xFFFFFFFF } }
      else
        let w := supply_register w regno.toNat (some (REG_ADDR state regno.toNat))
        Except.ok { w with thread :=
          { w.thread with fetched_regs := w.thread.fetched_regs ||| (1 <<< regno.toNat) } }
  else
    Except.ok w

/-- The function `gnu_fetch_registers`.  An index below -1 lies outside
every array the function indexes. -/
def gnu_fetch_registers (e : Env) (w : World) (regno : Int) : Outcome :=
  if e.thread_found = false then
    Outcome.error Msg.fetch_no_such_thread w
  else if regno < -1 then
    Outcome.undefined
  else
    match fetch_gregs e w regno with
    | Except.error w => Outcome.returned w
    | Except.ok w =>
      if regno ≥ NUM_GREGS ∨ regno = -1 then
        Outcome.returned (fetch_fpregs e w)
      else
        Outcome.returned w

/-! ## convert_to_env387 and store_fpregs -/

/-- The test `!valid || valid[n]`. -/
def mask_ok (valid : Option (Nat → Int)) (n : Nat) : Bool :=
  match valid with
  | none => true
  | some v => v n != 0

/-- The macro `fill (member, regno)` inside `convert_to_env387`. -/
def fill387 (valid : Option (Nat → Int)) (regs : Mem) (ep : Mem)
    (member : Nat) (sizeof_member : Nat) (regno : Nat) : Mem :=
  if mask_ok valid regno then
    memcpy ep member regs (REGISTER_BYTE regno) sizeof_member
  else ep

/-- One round of the loop over the stack registers in
`convert_to_env387`. -/
def fill_stack_slot (valid : Option (Nat → Int)) (regs : Mem) (ep : Mem) (i : Nat) : Mem :=
  if mask_ok valid i then
    memcpy ep (env387.regs i) regs (REGISTER_BYTE (FP0_REGNUM + i))
      (REGISTER_RAW_SIZE (FP0_REGNUM + i))
  else ep

/-- A guarded assignment `if (!valid || valid[regno]) ep->member = v;` to
an `unsigned short` member. -/
def assign16 (valid : Option (Nat → Int)) (ep : Mem) (member : Nat) (regno : Nat)
    (v : Nat) : Mem :=
  if mask_ok valid regno then store16 ep member v else ep

/-- The function `convert_to_env387 (ep, regs, valid)`; `registers` is
the global cache array the last two assignments read. -/
def convert_to_env387 (registers : Mem) (ep : Mem) (regs : Mem)
    (valid : Option (Nat → Int)) : Mem :=
  let ep := (List.range 8).foldl (fill_stack_slot valid regs) ep
  let ep := fill387 valid regs ep env387.control 2 FCTRL_REGNUM
  let ep := fill387 valid regs ep env387.status 2 FSTAT_REGNUM
  let ep := fill387 valid regs ep env387.tag 2 FTAG_REGNUM
  let ep := fill387 valid regs ep env387.eip 4 FCOFF_REGNUM
  let ep := fill387 valid regs ep env387.operand 4 FDOFF_REGNUM
  let ep := fill387 valid regs ep env387.operand_seg 2 FDS_REGNUM
  let ep := assign16 valid ep env387.code_seg FCS_REGNUM
    (load32 registers (REGISTER_BYTE FCS_REGNUM) &&& 0xffff)
  let ep := assign16 valid ep env387.opcode FOP_REGNUM
    (load32 registers (REGISTER_BYTE FOP_REGNUM) &&& ((1 <<< 11) - 1))
  ep

/-- The function `store_fpregs`. -/
def store_fpregs (e : Env) (w : World) : World :=
  if e.float_get_ok = false then
    warning w Msg.couldnt_fetch_float
  else
    let state := w.fpu
    let state := { state with
      hw_state := convert_to_env387 w.registers state.hw_state w.registers
        (some w.register_valid) }
    if e.float_set_ok = false then
      warning w Msg.couldnt_store_float
    else
      { w with fpu := state }

/-! ## gnu_store_registers -/

/-- The macro `fill (state, regno)` inside `gnu_store_registers`. -/
def fill (registers : Mem) (state : Mem) (regno : Nat) : Mem :=
  memcpy state (reg_offset regno) registers (REGISTER_BYTE regno) (REGISTER_RAW_SIZE regno)

/-- One round of the loop over `check_regno`; the accumulator is the
local `old_state` and the world. -/
def check_step (regno : Int) (state : Mem) (acc : Mem × World) (check_regno : Nat) :
    Mem × World :=
  if acc.2.thread.fetched_regs &&& (1 <<< check_regno) ≠ 0 then
    let old_state := memcpy acc.1 (reg_offset check_regno) state (reg_offset check_regno)
      (REGISTER_RAW_SIZE check_regno)
    if memcpy_as_condition then
      let w := warning acc.2 (Msg.changed check_regno)
      if regno ≥ 0 ∧ regno ≠ (check_regno : Int) then
        (old_state, supply_register w check_regno (some (REG_ADDR state check_regno)))
      else
        (old_state, warning w Msg.also_writing)
    else (old_state, acc.2)
  else acc

/-- The effect of one round of the loop over `check_regno` on the world,
the local `old_state` left aside. -/
def check_world (regno : Int) (state : Mem) (w : World) (check_regno : Nat) : World :=
  (check_step regno state (state, w) check_regno).2

/-- The loop "See which registers have changed after aborting the
thread". -/
def check_regs (regno : Int) (state : Mem) (old_state : Mem) (w : World) : World :=
  ((List.range NUM_GREGS).foldl (check_step regno state) (old_state, w)).2

/-- The warnings the loop over `check_regno` prints for the indices in
`idx`, in order: one for every fetched register, followed by a second one
unless a single other register is being stored. -/
def check_msgs (regno : Int) (fetched_regs : Nat) : List Nat → List Msg
  | [] => []
  | i :: idx =>
    (if fetched_regs &&& (1 <<< i) ≠ 0 then
      (if regno ≥ 0 ∧ regno ≠ (i : Int) then [Msg.changed i]
       else [Msg.changed i, Msg.also_writing])
     else []) ++ check_msgs regno fetched_regs idx

/-- The world of `gnu_store_registers` once `proc_get_state` has
returned the block `state` and the comparison with the old snapshot has
run, before any register is stored. -/
def reconciled (w : World) (regno : Int) (state : Mem) : World :=
  let was_aborted := w.thread.aborted
  let was_valid := w.thread.state_valid
  let old_state := w.thread.state
  let w1 := { w with thread := (proc_get_state w.thread true (some state)).1 }
  if (!was_aborted && was_valid) = true then check_regs regno state old_state w1 else w1

/-- The loop of the branch `regno == -1`. -/
def fill_all (registers : Mem) (register_valid : Nat → Int) (idx : List Nat) (state : Mem) :
    Mem :=
  idx.foldl (fun st i => if register_valid i ≠ 0 then fill registers st i else st) state

/-- The general-register part of `gnu_store_registers`: `Except.error`
ends the request (early `return` or failed assertion).  The pointer
`state` aliases `thread->state`, so the stores land there. -/
def store_gregs (e : Env) (w : World) (regno : Int) : Except Outcome World :=
  if regno < NUM_GREGS ∨ regno = -1 then
    let was_aborted := w.thread.aborted
    let was_valid := w.thread.state_valid
    let old_state := w.thread.state
    let r := proc_get_state w.thread true e.get_state
    let w := { w with thread := r.1 }
    match r.2 with
    | none => Except.error (Outcome.returned (warning w Msg.couldnt_store_registers))
    | some state =>
      let w :=
        if (!was_aborted && was_valid) = true then check_regs regno state old_state w
        else w
      if regno = -1 then
        Except.ok { w with thread := { w.thread with
          state := fill_all w.registers w.register_valid (List.range NUM_GREGS) state } }
      else
        if w.register_valid regno.toNat = 0 then
          Except.error (Outcome.assertion_failed w)
        else
          Except.ok { w with thread := { w.thread with
            state := fill w.registers state regno.toNat } }
  else
    Except.ok w

/-- The function `gnu_store_registers`.  An index below -1 lies outside
every array the function indexes. -/
def gnu_store_registers (e : Env) (w : World) (regno : Int) : Outcome :=
  if e.thread_found = false then
    Outcome.error Msg.store_no_such_thread w
  else if regno < -1 then
    Outcome.undefined
  else
    match store_gregs e w regno with
    | Except.error o => o
    | Except.ok w =>
      if regno ≥ NUM_GREGS ∨ regno = -1 then
        Outcome.returned (store_fpregs e w)
      else
        Outcome.returned w

/-- Encode the cache into the hardware block of a floating-point state
with no validity mask (`convert_to_env387` with a null `valid`, called
on the cache as `store_fpregs` calls it). -/
def encode (w : World) (st : i386_float_state) : i386_float_state :=
  { st with hw_state := convert_to_env387 w.registers st.hw_state w.registers none }

/-- Encode the cache into a block, then decode the block back into the
cache (the supplies of `fetch_fpregs` for the encoded block). -/
def encode_decode (w : World) (st : i386_float_state) : World :=
  supply_all (fetch_fpregs_supplies (encode w st)) w

/-- The world of `gnu_fetch_registers (-1)` once `proc_get_state` has
returned the block `state` and the general registers have been supplied
from it, before the floating-point registers are fetched. -/
def fetched_gregs (w : World) (state : Mem) : World :=
  let w1 := { w with thread := (proc_get_state w.thread false (some state)).1 }
  let w2 := (List.range NUM_GREGS).foldl
    (fun w i => supply_register w i (some (REG_ADDR state i))) w1
  { w2 with thread := { w2.thread with fetched_regs := 0xFFFFFFFF } }

/-- A fetch of all registers immediately followed by a store of all
registers. -/
def fetch_then_store (e1 e2 : Env) (w : World) : Outcome :=
  match gnu_fetch_registers e1 w (-1) with
  | Outcome.returned w1 => gnu_store_registers e2 w1 (-1)
  | o => o

/-- The world in which a request ended, when there is one. -/
def Outcome.world? : Outcome → Option World
  | Outcome.returned w => some w
  | Outcome.error _ w => some w
  | Outcome.assertion_failed w => some w
  | Outcome.undefined => none

/-- Whether the request ended in a failed assertion. -/
def Outcome.assertion_failed? : Outcome → Bool
  | Outcome.assertion_failed _ => true
  | _ => false

/-- Whether the request returned to its caller. -/
def Outcome.returned? : Outcome → Bool
  | Outcome.returned _ => true
  | _ => false

/-! ## Concrete inputs -/

/-- An object of zero bytes. -/
def zeroMem : Mem := fun _ => 0

/-- A thread that is running and has no snapshot. -/
def running_thread : proc :=
  { aborted := false, state_valid := false, state := zeroMem, fetched_regs := 0 }

/-- An initialized floating-point state with the given hardware block. -/
def initialized_state (hw : Mem) : i386_float_state :=
  { fpkind := 0, initialized := 1, hw_state := hw, exc_status := 0 }

/-- An uninitialized floating-point state with the given hardware block. -/
def uninitialized_state (hw : Mem) : i386_float_state :=
  { fpkind := 0, initialized := 0, hw_state := hw, exc_status := 0 }

/-- Every collaborator succeeds; the general-register block is `g`. -/
def env_ok (g : Mem) : Env :=
  { thread_found := true, get_state := some g, float_get_ok := true, float_set_ok := true }

/-- An empty cache, a running thread, and the given floating-point state. -/
def fresh_world (st : i386_float_state) : World where
  registers := zeroMem
  register_valid := fun _ => 0
  thread := running_thread
  fpu := st
  warnings := []

/-- A thread that gdb has not halted, with a valid snapshot of zero bytes
and register 0 (eax) fetched. -/
def snapshot_thread : proc :=
  { aborted := false, state_valid := true, state := zeroMem, fetched_regs := 1 }

/-- A cache of zero bytes with every entry valid, the thread
`snapshot_thread`, and an initialized floating-point state. -/
def snapshot_world : World where
  registers := zeroMem
  register_valid := fun _ => 1
  thread := snapshot_thread
  fpu := initialized_state zeroMem
  warnings := []

/-- A general-register block in which eax holds 1 and all else is zero. -/
def eax_one : Mem := store16 zeroMem (REG_OFFSET ThreadStateField.eax) 1

/-- A validity mask in which only register 0 (eax) is valid. -/
def eax_only_mask : Nat → Int := fun n => if n = 0 then 1 else 0

/-- A validity mask in which only register FP0 is valid. -/
def fp0_only_mask : Nat → Int := fun n => if n = FP0_REGNUM then 1 else 0

/-- A cache in which the first byte of the entry of FP0 is 1 and all else
is zero. -/
def fp0_one : Mem := store16 zeroMem (REGISTER_BYTE FP0_REGNUM) 1

/-- An initialized floating-point state whose block is zero except for
the opcode member, which holds 0x0800: bit 11 is set. -/
def opcode_high_state : i386_float_state :=
  initialized_state (store16 zeroMem env387.opcode 2048)

/-- A cache whose control-word entry holds 0x00010000: the upper half
of the four-byte entry is not zero. -/
def wide_control_world : World :=
  { fresh_world (initialized_state zeroMem) with registers := store16 zeroMem 146 1 }

/-- The general-register read (or the forced halt) fails; the thread is
found and the floating-point calls succeed. -/
def env_no_gregs : Env :=
  { thread_found := true, get_state := none, float_get_ok := true, float_set_ok := true }

/-- The general-register read yields the block `g`; the floating-point
read fails. -/
def env_no_float (g : Mem) : Env :=
  { thread_found := true, get_state := some g, float_get_ok := false, float_set_ok := true }

/-- An initialized floating-point state whose control word is 1 and all
else is zero. -/
def control_one_state : i386_float_state :=
  initialized_state (store16 zeroMem env387.control 1)

/-- A register buffer in which the code-segment entry holds 1 and all
else is zero. -/
def fcs_one : Mem := store16 zeroMem (REGISTER_BYTE FCS_REGNUM) 1

/-- The member of `struct env387` that `convert_to_env387` assigns from
a control pseudo-register: its offset and its size in bytes. -/
def env387.member (regno : Nat) : Nat × Nat :=
  if regno = FCTRL_REGNUM then (env387.control, 2)
  else if regno = FSTAT_REGNUM then (env387.status, 2)
  else if regno = FTAG_REGNUM then (env387.tag, 2)
  else if regno = FCS_REGNUM then (env387.code_seg, 2)
  else if regno = FCOFF_REGNUM then (env387.eip, 4)
  else if regno = FDS_REGNUM then (env387.operand_seg, 2)
  else if regno = FDOFF_REGNUM then (env387.operand, 4)
  else if regno = FOP_REGNUM then (env387.opcode, 2)
  else (0, 0)

end I386GnuNat

namespace I386GnuNat

/-! ## Objects -/

theorem memcpy_apply_in (dst src : Mem) (d s n a : Nat) (h1 : d ≤ a) (h2 : a < d + n) :
    memcpy dst d src s n a = src (s + (a - d)) := by
  simp [memcpy, h1, h2]

theorem memcpy_apply_out (dst src : Mem) (d s n a : Nat) (h : a < d ∨ d + n ≤ a) :
    memcpy dst d src s n a = dst a := by
  unfold memcpy
  rw [if_neg]
  omega

theorem memcpy_apply_off (dst src : Mem) (d s n j : Nat) (h : j < n) :
    memcpy dst d src s n (d + j) = src (s + j) := by
  rw [memcpy_apply_in dst src d s n (d + j) (by omega) (by omega)]
  congr 1
  omega

theorem memcpy_eq_self (dst src : Mem) (d s n : Nat)
    (h : ∀ j, j < n → src (s + j) = dst (d + j)) : memcpy dst d src s n = dst := by
  funext a
  by_cases ha : d ≤ a ∧ a < d + n
  · rw [memcpy_apply_in dst src d s n a ha.1 ha.2, h (a - d) (by omega)]
    congr 1
    omega
  · rw [memcpy_apply_out]
    omega

theorem byte_val (n : Nat) : (byte n).val = n % 256 := rfl

theorem store16_load16_self (m : Mem) (o : Nat) : store16 m o (load16 m o) = m := by
  funext a
  unfold store16 load16
  have h0 := (m o).isLt
  have h1 := (m (o + 1)).isLt
  split_ifs with ha hb
  · subst ha
    apply Fin.ext
    rw [byte_val]
    omega
  · subst hb
    apply Fin.ext
    rw [byte_val]
    omega
  · rfl

theorem load16_store16 (m : Mem) (o v : Nat) : load16 (store16 m o v) o = v % 65536 := by
  unfold load16 store16
  have h : ¬ (o + 1 = o) := by omega
  simp only [if_true, byte_val, if_neg h]
  omega

theorem load16_lt (m : Mem) (o : Nat) : load16 m o < 65536 := by
  unfold load16
  have h0 := (m o).isLt
  have h1 := (m (o + 1)).isLt
  omega

theorem long_bytes_val (v j : Nat) (h : j < 4) : (long_bytes v j).val = v / 256 ^ j % 256 := by
  simp [long_bytes, h, byte_val]

theorem load32_of_long_bytes (m : Mem) (o v : Nat)
    (h : ∀ j, j < 4 → m (o + j) = long_bytes v j) : load32 m o = v % 4294967296 := by
  unfold load32
  have h0 := h 0 (by omega)
  have h1 := h 1 (by omega)
  have h2 := h 2 (by omega)
  have h3 := h 3 (by omega)
  simp only [Nat.add_zero] at h0
  rw [h0, h1, h2, h3, long_bytes_val v 0 (by omega), long_bytes_val v 1 (by omega),
    long_bytes_val v 2 (by omega), long_bytes_val v 3 (by omega)]
  norm_num
  omega

theorem mask16 (x : Nat) : x &&& 0xffff = x % 65536 :=
  Nat.and_pow_two_sub_one_eq_mod x 16

theorem mask11 (x : Nat) : x &&& ((1 <<< 11) - 1) = x % 2048 :=
  Nat.and_pow_two_sub_one_eq_mod x 11

/-! ## Layout -/

theorem REGISTER_RAW_SIZE_greg (r : Nat) (h : r < 16) : REGISTER_RAW_SIZE r = 4 := by
  simp [REGISTER_RAW_SIZE, FP0_REGNUM, h]

theorem REGISTER_BYTE_greg (r : Nat) (h : r < 16) : REGISTER_BYTE r = 4 * r := by
  simp [REGISTER_BYTE, FP0_REGNUM, h]

theorem REGISTER_BYTE_disjoint (r r' j : Nat) (hr : r < 32) (hr' : r' < 32) (h : r ≠ r')
    (hj : j < REGISTER_RAW_SIZE r) :
    REGISTER_BYTE r + j < REGISTER_BYTE r' ∨
      REGISTER_BYTE r' + REGISTER_RAW_SIZE r' ≤ REGISTER_BYTE r + j := by
  unfold REGISTER_BYTE REGISTER_RAW_SIZE at *
  simp only [FP0_REGNUM, FP7_REGNUM, FIRST_FPU_CTRL_REGNUM] at *
  split_ifs at * <;> omega

theorem reg_offset_disjoint_table :
    ∀ i < 16, ∀ k < 16, i ≠ k → reg_offset i + 4 ≤ reg_offset k ∨ reg_offset k + 4 ≤ reg_offset i := by
  decide

theorem reg_offset_disjoint (r r' j : Nat) (hr : r < 16) (hr' : r' < 16) (h : r ≠ r')
    (hj : j < 4) :
    reg_offset r + j < reg_offset r' ∨ reg_offset r' + 4 ≤ reg_offset r + j := by
  have := reg_offset_disjoint_table r hr r' hr' h
  omega

/-! ## The register cache -/

theorem supply_register_thread (w : World) (r : Nat) (v : Option Mem) :
    (supply_register w r v).thread = w.thread := by
  cases v <;> rfl

theorem supply_register_fpu (w : World) (r : Nat) (v : Option Mem) :
    (supply_register w r v).fpu = w.fpu := by
  cases v <;> rfl

theorem supply_register_warnings (w : World) (r : Nat) (v : Option Mem) :
    (supply_register w r v).warnings = w.warnings := by
  cases v <;> rfl

theorem supply_register_registers_out (w : World) (r a : Nat) (v : Option Mem)
    (h : a < REGISTER_BYTE r ∨ REGISTER_BYTE r + REGISTER_RAW_SIZE r ≤ a) :
    (supply_register w r v).registers a = w.registers a := by
  cases v with
  | none => rfl
  | some m => exact memcpy_apply_out _ _ _ _ _ _ h

theorem supply_register_registers_in (w : World) (r j : Nat) (m : Mem)
    (h : j < REGISTER_RAW_SIZE r) :
    (supply_register w r (some m)).registers (REGISTER_BYTE r + j) = m j := by
  have := memcpy_apply_off w.registers m (REGISTER_BYTE r) 0 (REGISTER_RAW_SIZE r) j h
  simpa [supply_register] using this

theorem supply_register_valid_same (w : World) (r : Nat) (v : Option Mem) :
    (supply_register w r v).register_valid r = if v.isSome then 1 else 0 := by
  cases v <;> simp [supply_register]

theorem supply_register_valid_other (w : World) (r r' : Nat) (v : Option Mem) (h : r' ≠ r) :
    (supply_register w r v).register_valid r' = w.register_valid r' := by
  cases v <;> simp [supply_register, Function.update_noteq h]

theorem supply_all_nil (w : World) : supply_all [] w = w := rfl

theorem supply_all_cons (c : Nat × Option Mem) (cs : List (Nat × Option Mem)) (w : World) :
    supply_all (c :: cs) w = supply_all cs (supply_register w c.1 c.2) := rfl

theorem supply_all_append (cs ds : List (Nat × Option Mem)) (w : World) :
    supply_all (cs ++ ds) w = supply_all ds (supply_all cs w) := by
  simp [supply_all, List.foldl_append]

theorem supply_all_thread (cs : List (Nat × Option Mem)) (w : World) :
    (supply_all cs w).thread = w.thread := by
  induction cs generalizing w with
  | nil => rfl
  | cons c cs ih => rw [supply_all_cons, ih, supply_register_thread]

theorem supply_all_fpu (cs : List (Nat × Option Mem)) (w : World) :
    (supply_all cs w).fpu = w.fpu := by
  induction cs generalizing w with
  | nil => rfl
  | cons c cs ih => rw [supply_all_cons, ih, supply_register_fpu]

theorem supply_all_warnings (cs : List (Nat × Option Mem)) (w : World) :
    (supply_all cs w).warnings = w.warnings := by
  induction cs generalizing w with
  | nil => rfl
  | cons c cs ih => rw [supply_all_cons, ih, supply_register_warnings]

/-- Bytes of the cache outside the entries supplied are kept. -/
theorem supply_all_registers_out (cs : List (Nat × Option Mem)) (w : World) (a : Nat)
    (h : ∀ c ∈ cs, a < REGISTER_BYTE c.1 ∨ REGISTER_BYTE c.1 + REGISTER_RAW_SIZE c.1 ≤ a) :
    (supply_all cs w).registers a = w.registers a := by
  induction cs generalizing w with
  | nil => rfl
  | cons c cs ih =>
    rw [supply_all_cons, ih _ (fun c' hc' => h c' (List.mem_cons_of_mem _ hc')),
      supply_register_registers_out _ _ _ _ (h c (List.mem_cons_self _ _))]

/-- A value supplied once, among entries that do not overlap, is what the
cache holds afterwards. -/
theorem supply_all_registers_in (cs : List (Nat × Option Mem)) (w : World) (r j : Nat)
    (m : Mem) (hmem : (r, some m) ∈ cs) (hnd : (cs.map Prod.fst).Nodup)
    (hlt : ∀ c ∈ cs, c.1 < 32) (hj : j < REGISTER_RAW_SIZE r) :
    (supply_all cs w).registers (REGISTER_BYTE r + j) = m j := by
  induction cs generalizing w with
  | nil => cases hmem
  | cons c cs ih =>
    rw [supply_all_cons]
    rw [List.map_cons, List.nodup_cons] at hnd
    have hr : r < 32 := hlt (r, some m) hmem
    rcases List.mem_cons.1 hmem with heq | hin
    · subst heq
      rw [supply_all_registers_out, supply_register_registers_in _ _ _ _ hj]
      intro c' hc'
      have hne : r ≠ c'.1 := by
        intro e
        have hc : c'.1 ∈ cs.map Prod.fst := List.mem_map_of_mem Prod.fst hc'
        apply hnd.1
        show r ∈ cs.map Prod.fst
        rw [e]
        exact hc
      exact REGISTER_BYTE_disjoint r c'.1 j hr (hlt c' (List.mem_cons_of_mem _ hc')) hne hj
    · exact ih _ hin hnd.2 (fun c' hc' => hlt c' (List.mem_cons_of_mem _ hc'))

theorem supply_all_valid_out (cs : List (Nat × Option Mem)) (w : World) (r : Nat)
    (h : r ∉ cs.map Prod.fst) :
    (supply_all cs w).register_valid r = w.register_valid r := by
  induction cs generalizing w with
  | nil => rfl
  | cons c cs ih =>
    rw [List.map_cons, List.mem_cons, not_or] at h
    rw [supply_all_cons, ih _ h.2, supply_register_valid_other _ _ _ _ h.1]

theorem supply_all_valid_in (cs : List (Nat × Option Mem)) (w : World) (r : Nat)
    (v : Option Mem) (hmem : (r, v) ∈ cs) (hnd : (cs.map Prod.fst).Nodup) :
    (supply_all cs w).register_valid r = if v.isSome then 1 else 0 := by
  induction cs generalizing w with
  | nil => cases hmem
  | cons c cs ih =>
    rw [supply_all_cons]
    rw [List.map_cons, List.nodup_cons] at hnd
    rcases List.mem_cons.1 hmem with heq | hin
    · subst heq
      rw [supply_all_valid_out _ _ _ hnd.1, supply_register_valid_same]
    · exact ih _ hin hnd.2

/-! ## fetch_fpregs -/

theorem fetch_fpregs_supplies_uninitialized (st : i386_float_state) (h : st.initialized = 0) :
    fetch_fpregs_supplies st =
      (List.range' 16 8).map (fun i => (i, none)) ++ (List.range' 24 8).map (fun i => (i, none)) := by
  simp [fetch_fpregs_supplies, h, FP0_REGNUM, FP7_REGNUM, FIRST_FPU_CTRL_REGNUM,
    LAST_FPU_CTRL_REGNUM]

theorem fetch_fpregs_supplies_initialized (st : i386_float_state) (h : st.initialized ≠ 0) :
    fetch_fpregs_supplies st =
      [ (16, some (ptr st.hw_state 28)), (17, some (ptr st.hw_state 38)),
        (18, some (ptr st.hw_state 48)), (19, some (ptr st.hw_state 58)),
        (20, some (ptr st.hw_state 68)), (21, some (ptr st.hw_state 78)),
        (22, some (ptr st.hw_state 88)), (23, some (ptr st.hw_state 98)),
        (24, some (ptr st.hw_state 0)), (25, some (ptr st.hw_state 4)),
        (26, some (ptr st.hw_state 8)), (28, some (ptr st.hw_state 12)),
        (29, some (ptr st.hw_state 24)), (30, some (ptr st.hw_state 20)),
        (27, some (long_bytes (load16 st.hw_state 16))),
        (31, some (long_bytes (load16 st.hw_state 18 &&& ((1 <<< 11) - 1)))) ] := by
  have h8 : List.range 8 = [0, 1, 2, 3, 4, 5, 6, 7] := by decide
  simp [fetch_fpregs_supplies, h, h8, FP0_REGNUM, FCTRL_REGNUM, FSTAT_REGNUM, FTAG_REGNUM,
    FCOFF_REGNUM, FDS_REGNUM, FDOFF_REGNUM, FCS_REGNUM, FOP_REGNUM, env387.regs,
    env387.control, env387.status, env387.tag, env387.eip, env387.operand_seg,
    env387.operand, env387.code_seg, env387.opcode]

/-! ## convert_to_env387 -/

theorem fill387_apply_out (valid : Option (Nat → Int)) (regs ep : Mem) (m sz r a : Nat)
    (h : a < m ∨ m + sz ≤ a) : fill387 valid regs ep m sz r a = ep a := by
  unfold fill387
  split_ifs
  · exact memcpy_apply_out _ _ _ _ _ _ h
  · rfl

theorem fill387_apply_in (valid : Option (Nat → Int)) (regs ep : Mem) (m sz r a : Nat)
    (h1 : m ≤ a) (h2 : a < m + sz) :
    fill387 valid regs ep m sz r a =
      if mask_ok valid r = true then regs (REGISTER_BYTE r + (a - m)) else ep a := by
  unfold fill387
  split_ifs
  · exact memcpy_apply_in _ _ _ _ _ _ h1 h2
  · rfl

theorem assign16_apply_out (valid : Option (Nat → Int)) (ep : Mem) (m r v a : Nat)
    (h : a < m ∨ m + 2 ≤ a) : assign16 valid ep m r v a = ep a := by
  unfold assign16
  split_ifs
  · show (if a = m then byte v else if a = m + 1 then byte (v / 256) else ep a) = ep a
    rw [if_neg (by omega), if_neg (by omega)]
  · rfl

theorem load16_assign16 (valid : Option (Nat → Int)) (ep : Mem) (m r v : Nat) :
    load16 (assign16 valid ep m r v) m =
      if mask_ok valid r = true then v % 65536 else load16 ep m := by
  unfold assign16
  split_ifs
  · exact load16_store16 _ _ _
  · rfl

theorem load16_congr (m m' : Mem) (o : Nat) (h0 : m o = m' o) (h1 : m (o + 1) = m' (o + 1)) :
    load16 m o = load16 m' o := by
  unfold load16
  rw [h0, h1]

theorem fill_stack_slot_apply_out (valid : Option (Nat → Int)) (regs ep : Mem) (i a : Nat)
    (hi : i < 8) (h : a < 28 + 10 * i ∨ 38 + 10 * i ≤ a) :
    fill_stack_slot valid regs ep i a = ep a := by
  unfold fill_stack_slot
  split_ifs
  · apply memcpy_apply_out
    simp only [env387.regs, REGISTER_RAW_SIZE, FP0_REGNUM, FP7_REGNUM]
    split_ifs <;> omega
  · rfl

theorem fill_stack_slot_apply_in (valid : Option (Nat → Int)) (regs ep : Mem) (i j : Nat)
    (hi : i < 8) (hj : j < 10) :
    fill_stack_slot valid regs ep i (28 + 10 * i + j) =
      if mask_ok valid i = true then regs (64 + 10 * i + j) else ep (28 + 10 * i + j) := by
  unfold fill_stack_slot
  have hsz : REGISTER_RAW_SIZE (FP0_REGNUM + i) = 10 := by
    simp only [REGISTER_RAW_SIZE, FP0_REGNUM, FP7_REGNUM]
    split_ifs <;> omega
  have hby : REGISTER_BYTE (FP0_REGNUM + i) = 64 + 10 * i := by
    simp only [REGISTER_BYTE, FP0_REGNUM, FP7_REGNUM, FIRST_FPU_CTRL_REGNUM]
    split_ifs <;> omega
  split_ifs
  · rw [hsz, hby]
    exact memcpy_apply_off _ _ _ _ _ _ hj
  · rfl

theorem stack_loop_apply_out (valid : Option (Nat → Int)) (regs : Mem) (l : List Nat)
    (ep : Mem) (a : Nat) (hl : ∀ i ∈ l, i < 8)
    (h : ∀ i ∈ l, a < 28 + 10 * i ∨ 38 + 10 * i ≤ a) :
    l.foldl (fill_stack_slot valid regs) ep a = ep a := by
  induction l generalizing ep with
  | nil => rfl
  | cons x l ih =>
    rw [List.foldl_cons, ih _ (fun i hi => hl i (List.mem_cons_of_mem _ hi))
      (fun i hi => h i (List.mem_cons_of_mem _ hi)),
      fill_stack_slot_apply_out _ _ _ _ _ (hl x (List.mem_cons_self _ _))
        (h x (List.mem_cons_self _ _))]

theorem stack_loop_apply_in (valid : Option (Nat → Int)) (regs : Mem) (l : List Nat)
    (ep : Mem) (i j : Nat) (hl : ∀ k ∈ l, k < 8) (hnd : l.Nodup) (hi : i ∈ l) (hj : j < 10) :
    l.foldl (fill_stack_slot valid regs) ep (28 + 10 * i + j) =
      if mask_ok valid i = true then regs (64 + 10 * i + j) else ep (28 + 10 * i + j) := by
  induction l generalizing ep with
  | nil => cases hi
  | cons x l ih =>
    rw [List.foldl_cons]
    rw [List.nodup_cons] at hnd
    have hl' : ∀ k ∈ l, k < 8 := fun k hk => hl k (List.mem_cons_of_mem _ hk)
    rcases List.mem_cons.1 hi with heq | hin
    · subst heq
      rw [stack_loop_apply_out _ _ _ _ _ hl', fill_stack_slot_apply_in _ _ _ _ _
        (hl i (List.mem_cons_self _ _)) hj]
      intro k hk
      have : k ≠ i := fun e => hnd.1 (e ▸ hk)
      omega
    · rw [ih _ hl' hnd.2 hin]
      have hx : x ≠ i := fun e => hnd.1 (e ▸ hin)
      rw [fill_stack_slot_apply_out _ _ _ _ _ (hl x (List.mem_cons_self _ _)) (by omega)]

theorem range8_lt : ∀ k ∈ List.range 8, k < 8 := fun _ hk => List.mem_range.1 hk

/-- Stack slot `i` is written exactly when the mask entry at index `i`
is set (or the mask is null), with the cache bytes of register
`FP0_REGNUM + i`. -/
theorem convert_stack (registers ep regs : Mem) (valid : Option (Nat → Int)) (i j : Nat)
    (hi : i < 8) (hj : j < 10) :
    convert_to_env387 registers ep regs valid (28 + 10 * i + j) =
      if mask_ok valid i = true then regs (64 + 10 * i + j) else ep (28 + 10 * i + j) := by
  unfold convert_to_env387
  simp only [env387.control, env387.status, env387.tag, env387.eip, env387.operand,
    env387.operand_seg, env387.code_seg, env387.opcode]
  rw [assign16_apply_out _ _ _ _ _ _ (by omega), assign16_apply_out _ _ _ _ _ _ (by omega),
    fill387_apply_out _ _ _ _ _ _ _ (by omega), fill387_apply_out _ _ _ _ _ _ _ (by omega),
    fill387_apply_out _ _ _ _ _ _ _ (by omega), fill387_apply_out _ _ _ _ _ _ _ (by omega),
    fill387_apply_out _ _ _ _ _ _ _ (by omega), fill387_apply_out _ _ _ _ _ _ _ (by omega),
    stack_loop_apply_in _ _ _ _ _ _ range8_lt (List.nodup_range 8) (List.mem_range.2 hi) hj]

/-- Below the stack slots: what the loop over the stack slots leaves. -/
theorem stack_loop_low (valid : Option (Nat → Int)) (regs ep : Mem) (a : Nat) (h : a < 28) :
    (List.range 8).foldl (fill_stack_slot valid regs) ep a = ep a :=
  stack_loop_apply_out _ _ _ _ _ range8_lt (fun _ _ => by omega)

theorem convert_control (registers ep regs : Mem) (valid : Option (Nat → Int)) (a : Nat)
    (h1 : 0 ≤ a) (h2 : a < 2) :
    convert_to_env387 registers ep regs valid a =
      if mask_ok valid 24 = true then regs (144 + a) else ep a := by
  unfold convert_to_env387
  simp only [env387.control, env387.status, env387.tag, env387.eip, env387.operand,
    env387.operand_seg, env387.code_seg, env387.opcode, FCTRL_REGNUM, FSTAT_REGNUM,
    FTAG_REGNUM, FCOFF_REGNUM, FDOFF_REGNUM, FDS_REGNUM, FCS_REGNUM, FOP_REGNUM]
  rw [assign16_apply_out _ _ _ _ _ _ (by omega),
    assign16_apply_out _ _ _ _ _ _ (by omega),
    fill387_apply_out _ _ _ _ _ _ _ (by omega),
    fill387_apply_out _ _ _ _ _ _ _ (by omega),
    fill387_apply_out _ _ _ _ _ _ _ (by omega),
    fill387_apply_out _ _ _ _ _ _ _ (by omega),
    fill387_apply_out _ _ _ _ _ _ _ (by omega),
    fill387_apply_in _ _ _ _ _ _ _ (by omega) (by omega)]
  split_ifs
  · rfl
  · rw [stack_loop_low _ _ _ _ (by omega)]

theorem convert_status (registers ep regs : Mem) (valid : Option (Nat → Int)) (a : Nat)
    (h1 : 4 ≤ a) (h2 : a < 6) :
    convert_to_env387 registers ep regs valid a =
      if mask_ok valid 25 = true then regs (148 + (a - 4)) else ep a := by
  unfold convert_to_env387
  simp only [env387.control, env387.status, env387.tag, env387.eip, env387.operand,
    env387.operand_seg, env387.code_seg, env387.opcode, FCTRL_REGNUM, FSTAT_REGNUM,
    FTAG_REGNUM, FCOFF_REGNUM, FDOFF_REGNUM, FDS_REGNUM, FCS_REGNUM, FOP_REGNUM]
  rw [assign16_apply_out _ _ _ _ _ _ (by omega),
    assign16_apply_out _ _ _ _ _ _ (by omega),
    fill387_apply_out _ _ _ _ _ _ _ (by omega),
    fill387_apply_out _ _ _ _ _ _ _ (by omega),
    fill387_apply_out _ _ _ _ _ _ _ (by omega),
    fill387_apply_out _ _ _ _ _ _ _ (by omega),
    fill387_apply_in _ _ _ _ _ _ _ (by omega) (by omega)]
  split_ifs
  · rfl
  · rw [fill387_apply_out _ _ _ _ _ _ _ (by omega),
      stack_loop_low _ _ _ _ (by omega)]

theorem convert_tag (registers ep regs : Mem) (valid : Option (Nat → Int)) (a : Nat)
    (h1 : 8 ≤ a) (h2 : a < 10) :
    convert_to_env387 registers ep regs valid a =
      if mask_ok valid 26 = true then regs (152 + (a - 8)) else ep a := by
  unfold convert_to_env387
  simp only [env387.control, env387.status, env387.tag, env387.eip, env387.operand,
    env387.operand_seg, env387.code_seg, env387.opcode, FCTRL_REGNUM, FSTAT_REGNUM,
    FTAG_REGNUM, FCOFF_REGNUM, FDOFF_REGNUM, FDS_REGNUM, FCS_REGNUM, FOP_REGNUM]
  rw [assign16_apply_out _ _ _ _ _ _ (by omega),
    assign16_apply_out _ _ _ _ _ _ (by omega),
    fill387_apply_out _ _ _ _ _ _ _ (by omega),
    fill387_apply_out _ _ _ _ _ _ _ (by omega),
    fill387_apply_out _ _ _ _ _ _ _ (by omega),
    fill387_apply_in _ _ _ _ _ _ _ (by omega) (by omega)]
  split_ifs
  · rfl
  · rw [fill387_apply_out _ _ _ _ _ _ _ (by omega),
      fill387_apply_out _ _ _ _ _ _ _ (by omega),
      stack_loop_low _ _ _ _ (by omega)]

theorem convert_eip (registers ep regs : Mem) (valid : Option (Nat → Int)) (a : Nat)
    (h1 : 12 ≤ a) (h2 : a < 16) :
    convert_to_env387 registers ep regs valid a =
      if mask_ok valid 28 = true then regs (160 + (a - 12)) else ep a := by
  unfold convert_to_env387
  simp only [env387.control, env387.status, env387.tag, env387.eip, env387.operand,
    env387.operand_seg, env387.code_seg, env387.opcode, FCTRL_REGNUM, FSTAT_REGNUM,
    FTAG_REGNUM, FCOFF_REGNUM, FDOFF_REGNUM, FDS_REGNUM, FCS_REGNUM, FOP_REGNUM]
  rw [assign16_apply_out _ _ _ _ _ _ (by omega),
    assign16_apply_out _ _ _ _ _ _ (by omega),
    fill387_apply_out _ _ _ _ _ _ _ (by omega),
    fill387_apply_out _ _ _ _ _ _ _ (by omega),
    fill387_apply_in _ _ _ _ _ _ _ (by omega) (by omega)]
  split_ifs
  · rfl
  · rw [fill387_apply_out _ _ _ _ _ _ _ (by omega),
      fill387_apply_out _ _ _ _ _ _ _ (by omega),
      fill387_apply_out _ _ _ _ _ _ _ (by omega),
      stack_loop_low _ _ _ _ (by omega)]

theorem convert_operand (registers ep regs : Mem) (valid : Option (Nat → Int)) (a : Nat)
    (h1 : 20 ≤ a) (h2 : a < 24) :
    convert_to_env387 registers ep regs valid a =
      if mask_ok valid 30 = true then regs (168 + (a - 20)) else ep a := by
  unfold convert_to_env387
  simp only [env387.control, env387.status, env387.tag, env387.eip, env387.operand,
    env387.operand_seg, env387.code_seg, env387.opcode, FCTRL_REGNUM, FSTAT_REGNUM,
    FTAG_REGNUM, FCOFF_REGNUM, FDOFF_REGNUM, FDS_REGNUM, FCS_REGNUM, FOP_REGNUM]
  rw [assign16_apply_out _ _ _ _ _ _ (by omega),
    assign16_apply_out _ _ _ _ _ _ (by omega),
    fill387_apply_out _ _ _ _ _ _ _ (by omega),
    fill387_apply_in _ _ _ _ _ _ _ (by omega) (by omega)]
  split_ifs
  · rfl
  · rw [fill387_apply_out _ _ _ _ _ _ _ (by omega),
      fill387_apply_out _ _ _ _ _ _ _ (by omega),
      fill387_apply_out _ _ _ _ _ _ _ (by omega),
      fill387_apply_out _ _ _ _ _ _ _ (by omega),
      stack_loop_low _ _ _ _ (by omega)]

theorem convert_operand_seg (registers ep regs : Mem) (valid : Option (Nat → Int)) (a : Nat)
    (h1 : 24 ≤ a) (h2 : a < 26) :
    convert_to_env387 registers ep regs valid a =
      if mask_ok valid 29 = true then regs (164 + (a - 24)) else ep a := by
  unfold convert_to_env387
  simp only [env387.control, env387.status, env387.tag, env387.eip, env387.operand,
    env387.operand_seg, env387.code_seg, env387.opcode, FCTRL_REGNUM, FSTAT_REGNUM,
    FTAG_REGNUM, FCOFF_REGNUM, FDOFF_REGNUM, FDS_REGNUM, FCS_REGNUM, FOP_REGNUM]
  rw [assign16_apply_out _ _ _ _ _ _ (by omega),
    assign16_apply_out _ _ _ _ _ _ (by omega),
    fill387_apply_in _ _ _ _ _ _ _ (by omega) (by omega)]
  split_ifs
  · rfl
  · rw [fill387_apply_out _ _ _ _ _ _ _ (by omega),
      fill387_apply_out _ _ _ _ _ _ _ (by omega),
      fill387_apply_out _ _ _ _ _ _ _ (by omega),
      fill387_apply_out _ _ _ _ _ _ _ (by omega),
      fill387_apply_out _ _ _ _ _ _ _ (by omega),
      stack_loop_low _ _ _ _ (by omega)]

theorem convert_code_seg (registers ep regs : Mem) (valid : Option (Nat → Int)) :
    load16 (convert_to_env387 registers ep regs valid) 16 =
      if mask_ok valid 27 = true then load32 registers 156 % 65536 else load16 ep 16 := by
  unfold convert_to_env387
  simp only [env387.control, env387.status, env387.tag, env387.eip, env387.operand,
    env387.operand_seg, env387.code_seg, env387.opcode, FCTRL_REGNUM, FSTAT_REGNUM,
    FTAG_REGNUM, FCOFF_REGNUM, FDOFF_REGNUM, FDS_REGNUM, FCS_REGNUM, FOP_REGNUM]
  have hb : REGISTER_BYTE 27 = 156 := by decide
  rw [load16_congr _ _ 16 (assign16_apply_out _ _ _ _ _ _ (by omega)) (assign16_apply_out _ _ _ _ _ _ (by omega)), load16_assign16, mask16, hb]
  split_ifs
  · omega
  · apply load16_congr
    · rw [fill387_apply_out _ _ _ _ _ _ _ (by omega), fill387_apply_out _ _ _ _ _ _ _ (by omega), fill387_apply_out _ _ _ _ _ _ _ (by omega), fill387_apply_out _ _ _ _ _ _ _ (by omega), fill387_apply_out _ _ _ _ _ _ _ (by omega), fill387_apply_out _ _ _ _ _ _ _ (by omega), stack_loop_low _ _ _ _ (by omega)]
    · rw [fill387_apply_out _ _ _ _ _ _ _ (by omega), fill387_apply_out _ _ _ _ _ _ _ (by omega), fill387_apply_out _ _ _ _ _ _ _ (by omega), fill387_apply_out _ _ _ _ _ _ _ (by omega), fill387_apply_out _ _ _ _ _ _ _ (by omega), fill387_apply_out _ _ _ _ _ _ _ (by omega), stack_loop_low _ _ _ _ (by omega)]

theorem convert_opcode (registers ep regs : Mem) (valid : Option (Nat → Int)) :
    load16 (convert_to_env387 registers ep regs valid) 18 =
      if mask_ok valid 31 = true then load32 registers 172 % 2048 else load16 ep 18 := by
  unfold convert_to_env387
  simp only [env387.control, env387.status, env387.tag, env387.eip, env387.operand,
    env387.operand_seg, env387.code_seg, env387.opcode, FCTRL_REGNUM, FSTAT_REGNUM,
    FTAG_REGNUM, FCOFF_REGNUM, FDOFF_REGNUM, FDS_REGNUM, FCS_REGNUM, FOP_REGNUM]
  have hb : REGISTER_BYTE 31 = 172 := by decide
  rw [load16_assign16, mask11, hb]
  split_ifs
  · omega
  · apply load16_congr
    · rw [assign16_apply_out _ _ _ _ _ _ (by omega), fill387_apply_out _ _ _ _ _ _ _ (by omega), fill387_apply_out _ _ _ _ _ _ _ (by omega), fill387_apply_out _ _ _ _ _ _ _ (by omega), fill387_apply_out _ _ _ _ _ _ _ (by omega), fill387_apply_out _ _ _ _ _ _ _ (by omega), fill387_apply_out _ _ _ _ _ _ _ (by omega), stack_loop_low _ _ _ _ (by omega)]
    · rw [assign16_apply_out _ _ _ _ _ _ (by omega), fill387_apply_out _ _ _ _ _ _ _ (by omega), fill387_apply_out _ _ _ _ _ _ _ (by omega), fill387_apply_out _ _ _ _ _ _ _ (by omega), fill387_apply_out _ _ _ _ _ _ _ (by omega), fill387_apply_out _ _ _ _ _ _ _ (by omega), fill387_apply_out _ _ _ _ _ _ _ (by omega), stack_loop_low _ _ _ _ (by omega)]

/-- Bytes outside every named member are kept. -/
theorem convert_reserved (registers ep regs : Mem) (valid : Option (Nat → Int)) (a : Nat)
    (h : (2 ≤ a ∧ a < 4) ∨ (6 ≤ a ∧ a < 8) ∨ (10 ≤ a ∧ a < 12) ∨ (26 ≤ a ∧ a < 28) ∨ 108 ≤ a) :
    convert_to_env387 registers ep regs valid a = ep a := by
  unfold convert_to_env387
  simp only [env387.control, env387.status, env387.tag, env387.eip, env387.operand,
    env387.operand_seg, env387.code_seg, env387.opcode, FCTRL_REGNUM, FSTAT_REGNUM,
    FTAG_REGNUM, FCOFF_REGNUM, FDOFF_REGNUM, FDS_REGNUM, FCS_REGNUM, FOP_REGNUM]
  rw [assign16_apply_out _ _ _ _ _ _ (by omega), assign16_apply_out _ _ _ _ _ _ (by omega), fill387_apply_out _ _ _ _ _ _ _ (by omega), fill387_apply_out _ _ _ _ _ _ _ (by omega), fill387_apply_out _ _ _ _ _ _ _ (by omega), fill387_apply_out _ _ _ _ _ _ _ (by omega), fill387_apply_out _ _ _ _ _ _ _ (by omega), fill387_apply_out _ _ _ _ _ _ _ (by omega)]
  exact stack_loop_apply_out _ _ _ _ _ range8_lt (fun k hk => by
    have := List.mem_range.1 hk
    omega)

/-! ## Decoding after encoding -/

theorem fetch_fpregs_supplies_nodup (st : i386_float_state) :
    ((fetch_fpregs_supplies st).map Prod.fst).Nodup := by
  by_cases h : st.initialized = 0
  · rw [fetch_fpregs_supplies_uninitialized st h]
    simp only [List.map_append, List.map_map]
    decide
  · rw [fetch_fpregs_supplies_initialized st h]
    simp only [List.map_cons, List.map_nil]
    decide

theorem fetch_fpregs_supplies_lt (st : i386_float_state) :
    ∀ c ∈ fetch_fpregs_supplies st, c.1 < 32 := by
  intro c hc
  by_cases h : st.initialized = 0
  · rw [fetch_fpregs_supplies_uninitialized st h] at hc
    simp only [List.mem_append, List.mem_map, List.mem_range'_1] at hc
    rcases hc with ⟨k, hk, rfl⟩ | ⟨k, hk, rfl⟩ <;> simp only <;> omega
  · rw [fetch_fpregs_supplies_initialized st h] at hc
    simp only [List.mem_cons, List.mem_singleton, List.not_mem_nil, or_false] at hc
    rcases hc with h | h | h | h | h | h | h | h | h | h | h | h | h | h | h | h <;>
      (subst h; simp only; omega)

/-- A floating-point register the decoder supplies with a value holds
that value afterwards. -/
theorem decode_registers_in (st : i386_float_state) (w : World) (r j : Nat) (m : Mem)
    (hmem : (r, some m) ∈ fetch_fpregs_supplies st) (hj : j < REGISTER_RAW_SIZE r) :
    (supply_all (fetch_fpregs_supplies st) w).registers (REGISTER_BYTE r + j) = m j :=
  supply_all_registers_in _ w r j m hmem (fetch_fpregs_supplies_nodup st)
    (fetch_fpregs_supplies_lt st) hj

/-- Bytes of the cache below the floating-point registers are not
touched by the decoder. -/
theorem decode_registers_low (st : i386_float_state) (w : World) (a : Nat) (h : a < 64) :
    (supply_all (fetch_fpregs_supplies st) w).registers a = w.registers a := by
  apply supply_all_registers_out
  intro c hc
  by_cases hi : st.initialized = 0
  · rw [fetch_fpregs_supplies_uninitialized st hi] at hc
    simp only [List.mem_append, List.mem_map, List.mem_range'_1] at hc
    rcases hc with ⟨k, hk, rfl⟩ | ⟨k, hk, rfl⟩ <;>
      (simp only [REGISTER_BYTE, REGISTER_RAW_SIZE, FP0_REGNUM, FP7_REGNUM,
        FIRST_FPU_CTRL_REGNUM]; split_ifs <;> omega)
  · rw [fetch_fpregs_supplies_initialized st hi] at hc
    simp only [List.mem_cons, List.mem_singleton, List.not_mem_nil, or_false] at hc
    rcases hc with h | h | h | h | h | h | h | h | h | h | h | h | h | h | h | h <;>
      (subst h; simp only [REGISTER_BYTE, REGISTER_RAW_SIZE, FP0_REGNUM, FP7_REGNUM,
        FIRST_FPU_CTRL_REGNUM]; split_ifs <;> omega)

theorem mask_ok_none (n : Nat) : mask_ok none n = true := rfl

/-- The decoder supplies the code segment as a `long`. -/
theorem decode_fcs (st : i386_float_state) (w : World) (h : st.initialized ≠ 0)
    (j : Nat) (hj : j < 4) :
    (supply_all (fetch_fpregs_supplies st) w).registers (156 + j) =
      long_bytes (load16 st.hw_state 16) j :=
  decode_registers_in st w 27 j (long_bytes (load16 st.hw_state 16))
    (by rw [fetch_fpregs_supplies_initialized _ h]; simp) hj

/-- The decoder supplies the opcode, masked to 11 bits, as a `long`. -/
theorem decode_fop (st : i386_float_state) (w : World) (h : st.initialized ≠ 0)
    (j : Nat) (hj : j < 4) :
    (supply_all (fetch_fpregs_supplies st) w).registers (172 + j) =
      long_bytes (load16 st.hw_state 18 % 2048) j := by
  rw [← mask11]
  exact decode_registers_in st w 31 j _
    (by rw [fetch_fpregs_supplies_initialized _ h]; simp) hj

/-- After encode and decode the code-segment entry of the cache is the
`long` holding the low 16 bits of what it held. -/
theorem encode_decode_fcs (w : World) (st : i386_float_state) (h : st.initialized ≠ 0)
    (j : Nat) (hj : j < 4) :
    (encode_decode w st).registers (156 + j) =
      long_bytes (load32 w.registers 156 % 65536) j := by
  unfold encode_decode
  rw [decode_fcs (encode w st) w h j hj]
  show long_bytes (load16 (convert_to_env387 w.registers st.hw_state w.registers none) 16) j = _
  rw [convert_code_seg, if_pos (mask_ok_none 27)]

/-- After encode and decode the opcode entry of the cache is the `long`
holding the low 11 bits of what it held. -/
theorem encode_decode_fop (w : World) (st : i386_float_state) (h : st.initialized ≠ 0)
    (j : Nat) (hj : j < 4) :
    (encode_decode w st).registers (172 + j) =
      long_bytes (load32 w.registers 172 % 2048) j := by
  unfold encode_decode
  rw [decode_fop (encode w st) w h j hj]
  show long_bytes
    (load16 (convert_to_env387 w.registers st.hw_state w.registers none) 18 % 2048) j = _
  rw [convert_opcode, if_pos (mask_ok_none 31)]
  congr 1
  omega

/-- The decoder copies stack slot `i` of an initialized block into the
entry of register `FP0_REGNUM + i`. -/
theorem decode_stack (st : i386_float_state) (w : World) (h : st.initialized ≠ 0)
    (i j : Nat) (hi : i < 8) (hj : j < 10) :
    (supply_all (fetch_fpregs_supplies st) w).registers (64 + 10 * i + j) =
      st.hw_state (28 + 10 * i + j) := by
  have hb : REGISTER_BYTE (16 + i) = 64 + 10 * i := by
    simp only [REGISTER_BYTE, FP0_REGNUM, FP7_REGNUM, FIRST_FPU_CTRL_REGNUM]
    split_ifs <;> omega
  have hs : REGISTER_RAW_SIZE (16 + i) = 10 := by
    simp only [REGISTER_RAW_SIZE, FP0_REGNUM, FP7_REGNUM]
    split_ifs <;> omega
  rw [← hb, decode_registers_in st w (16 + i) j (ptr st.hw_state (28 + 10 * i))
    (by rw [fetch_fpregs_supplies_initialized _ h]; interval_cases i <;> simp)
    (by rw [hs]; exact hj)]
  rfl

/-- The decoder copies four bytes starting at a member of an initialized
block into the entry of the control pseudo-register read from it. -/
theorem decode_direct (st : i386_float_state) (w : World) (h : st.initialized ≠ 0)
    (r off j : Nat)
    (hr : (r, off) ∈ [(24, 0), (25, 4), (26, 8), (28, 12), (29, 24), (30, 20)])
    (hj : j < 4) :
    (supply_all (fetch_fpregs_supplies st) w).registers (REGISTER_BYTE r + j) =
      st.hw_state (off + j) := by
  have hs : REGISTER_RAW_SIZE r = 4 := by
    simp only [List.mem_cons, Prod.mk.injEq, List.mem_singleton, List.not_mem_nil,
      or_false] at hr
    rcases hr with ⟨rfl, _⟩ | ⟨rfl, _⟩ | ⟨rfl, _⟩ | ⟨rfl, _⟩ | ⟨rfl, _⟩ | ⟨rfl, _⟩ <;> decide
  rw [decode_registers_in st w r j (ptr st.hw_state off) _ (by rw [hs]; exact hj)]
  · rfl
  · rw [fetch_fpregs_supplies_initialized _ h]
    simp only [List.mem_cons, Prod.mk.injEq, List.mem_singleton, List.not_mem_nil,
      or_false] at hr
    rcases hr with ⟨rfl, rfl⟩ | ⟨rfl, rfl⟩ | ⟨rfl, rfl⟩ | ⟨rfl, rfl⟩ | ⟨rfl, rfl⟩ | ⟨rfl, rfl⟩ <;>
      simp

/-! ## General registers -/

theorem reg_offset_lt (i : Nat) (h : i < 16) : reg_offset i + 4 ≤ 68 := by
  have : ∀ i < 16, reg_offset i + 4 ≤ 68 := by decide
  exact this i h

theorem fill_apply_out (registers st : Mem) (i a : Nat) (hi : i < 16)
    (h : a < reg_offset i ∨ reg_offset i + 4 ≤ a) : fill registers st i a = st a := by
  unfold fill
  rw [REGISTER_RAW_SIZE_greg i hi]
  exact memcpy_apply_out _ _ _ _ _ _ h

theorem fill_apply_in (registers st : Mem) (i j : Nat) (hi : i < 16) (hj : j < 4) :
    fill registers st i (reg_offset i + j) = registers (REGISTER_BYTE i + j) := by
  unfold fill
  rw [REGISTER_RAW_SIZE_greg i hi]
  exact memcpy_apply_off _ _ _ _ _ _ hj

theorem fill_all_cons (registers : Mem) (valid : Nat → Int) (x : Nat) (l : List Nat)
    (st : Mem) :
    fill_all registers valid (x :: l) st =
      fill_all registers valid l (if valid x ≠ 0 then fill registers st x else st) := rfl

theorem fill_all_apply_out (registers : Mem) (valid : Nat → Int) (l : List Nat) (st : Mem)
    (a : Nat) (hl : ∀ i ∈ l, i < 16)
    (h : ∀ i ∈ l, a < reg_offset i ∨ reg_offset i + 4 ≤ a) :
    fill_all registers valid l st a = st a := by
  induction l generalizing st with
  | nil => rfl
  | cons x l ih =>
    rw [fill_all_cons, ih _ (fun i hi => hl i (List.mem_cons_of_mem _ hi))
      (fun i hi => h i (List.mem_cons_of_mem _ hi))]
    split_ifs
    · exact fill_apply_out _ _ _ _ (hl x (List.mem_cons_self _ _)) (h x (List.mem_cons_self _ _))
    · rfl

theorem fill_all_apply_in (registers : Mem) (valid : Nat → Int) (l : List Nat) (st : Mem)
    (i j : Nat) (hl : ∀ k ∈ l, k < 16) (hnd : l.Nodup) (hi : i ∈ l) (hj : j < 4) :
    fill_all registers valid l st (reg_offset i + j) =
      if valid i ≠ 0 then registers (REGISTER_BYTE i + j) else st (reg_offset i + j) := by
  induction l generalizing st with
  | nil => cases hi
  | cons x l ih =>
    rw [fill_all_cons]
    rw [List.nodup_cons] at hnd
    have hl' : ∀ k ∈ l, k < 16 := fun k hk => hl k (List.mem_cons_of_mem _ hk)
    have hx : x < 16 := hl x (List.mem_cons_self _ _)
    rcases List.mem_cons.1 hi with heq | hin
    · subst heq
      rw [fill_all_apply_out _ _ _ _ _ hl']
      · split_ifs
        · exact fill_apply_in _ _ _ _ hx hj
        · rfl
      · intro k hk
        have hne : i ≠ k := fun e => hnd.1 (e ▸ hk)
        exact reg_offset_disjoint i k j hx (hl' k hk) hne hj
    · rw [ih _ hl' hnd.2 hin]
      have hne : i ≠ x := fun e => hnd.1 (e ▸ hin)
      have hd := reg_offset_disjoint i x j (hl' i hin) hx hne hj
      split_ifs <;> first | rfl | exact fill_apply_out _ _ _ _ hx hd

/-- Writing back bytes that the block already holds changes nothing. -/
theorem fill_all_eq_self (registers : Mem) (valid : Nat → Int) (l : List Nat) (st : Mem)
    (hl : ∀ i ∈ l, i < 16)
    (h : ∀ i ∈ l, ∀ j, j < 4 → registers (REGISTER_BYTE i + j) = st (reg_offset i + j)) :
    fill_all registers valid l st = st := by
  induction l with
  | nil => rfl
  | cons x l ih =>
    rw [fill_all_cons]
    have hx : fill registers st x = st := by
      unfold fill
      rw [REGISTER_RAW_SIZE_greg x (hl x (List.mem_cons_self _ _))]
      exact memcpy_eq_self _ _ _ _ _ (h x (List.mem_cons_self _ _))
    rw [hx, ite_self]
    exact ih (fun i hi => hl i (List.mem_cons_of_mem _ hi))
      (fun i hi => h i (List.mem_cons_of_mem _ hi))

theorem fill_all_of_invalid (registers : Mem) (valid : Nat → Int) (l : List Nat) (st : Mem)
    (h : ∀ i ∈ l, valid i = 0) : fill_all registers valid l st = st := by
  induction l with
  | nil => rfl
  | cons x l ih =>
    rw [fill_all_cons, if_neg (by simp [h x (List.mem_cons_self _ _)])]
    exact ih (fun i hi => h i (List.mem_cons_of_mem _ hi))

theorem range16_lt : ∀ k ∈ List.range NUM_GREGS, k < 16 := fun _ hk => List.mem_range.1 hk

/-! ## The loop over check_regno -/

theorem check_step_snd (regno : Int) (state : Mem) (acc : Mem × World) (i : Nat) :
    (check_step regno state acc i).2 = check_world regno state acc.2 i := by
  unfold check_world check_step
  simp only [memcpy_as_condition, if_true]
  split_ifs <;> rfl

theorem foldl_check_step_snd (regno : Int) (state : Mem) (l : List Nat) (acc : Mem × World) :
    (l.foldl (check_step regno state) acc).2 = l.foldl (check_world regno state) acc.2 := by
  induction l generalizing acc with
  | nil => rfl
  | cons x l ih => rw [List.foldl_cons, ih, check_step_snd, List.foldl_cons]

theorem check_regs_eq (regno : Int) (state old_state : Mem) (w : World) :
    check_regs regno state old_state w =
      (List.range NUM_GREGS).foldl (check_world regno state) w := by
  unfold check_regs
  rw [foldl_check_step_snd]

theorem check_world_unfetched (regno : Int) (state : Mem) (w : World) (i : Nat)
    (h : w.thread.fetched_regs &&& (1 <<< i) = 0) : check_world regno state w i = w := by
  simp [check_world, check_step, h]

theorem check_world_other (regno : Int) (state : Mem) (w : World) (i : Nat)
    (h : w.thread.fetched_regs &&& (1 <<< i) ≠ 0) (h1 : regno ≥ 0) (h2 : regno ≠ (i : Int)) :
    check_world regno state w i =
      supply_register (warning w (Msg.changed i)) i (some (REG_ADDR state i)) := by
  simp [check_world, check_step, h, h1, h2, memcpy_as_condition]

theorem check_world_same (regno : Int) (state : Mem) (w : World) (i : Nat)
    (h : w.thread.fetched_regs &&& (1 <<< i) ≠ 0) (h1 : ¬ (regno ≥ 0 ∧ regno ≠ (i : Int))) :
    check_world regno state w i =
      warning (warning w (Msg.changed i)) Msg.also_writing := by
  unfold check_world check_step
  simp only [memcpy_as_condition, if_true]
  rw [if_pos h, if_neg h1]

theorem check_world_thread (regno : Int) (state : Mem) (w : World) (i : Nat) :
    (check_world regno state w i).thread = w.thread := by
  unfold check_world check_step
  simp only [memcpy_as_condition, if_true]
  split_ifs <;> rfl

theorem check_world_fpu (regno : Int) (state : Mem) (w : World) (i : Nat) :
    (check_world regno state w i).fpu = w.fpu := by
  unfold check_world check_step
  simp only [memcpy_as_condition, if_true]
  split_ifs <;> rfl

theorem check_loop_thread (regno : Int) (state : Mem) (l : List Nat) (w : World) :
    (l.foldl (check_world regno state) w).thread = w.thread := by
  induction l generalizing w with
  | nil => rfl
  | cons x l ih => rw [List.foldl_cons, ih, check_world_thread]

theorem check_loop_fpu (regno : Int) (state : Mem) (l : List Nat) (w : World) :
    (l.foldl (check_world regno state) w).fpu = w.fpu := by
  induction l generalizing w with
  | nil => rfl
  | cons x l ih => rw [List.foldl_cons, ih, check_world_fpu]

/-- A round of the loop writes into the cache only at the entry of
`check_regno`, and only when that is not the register being stored. -/
theorem check_world_registers_out (regno : Int) (state : Mem) (w : World) (i a : Nat)
    (h : regno = (i : Int) ∨ a < REGISTER_BYTE i ∨ REGISTER_BYTE i + REGISTER_RAW_SIZE i ≤ a) :
    (check_world regno state w i).registers a = w.registers a := by
  by_cases hf : w.thread.fetched_regs &&& (1 <<< i) = 0
  · rw [check_world_unfetched _ _ _ _ hf]
  · by_cases hc : regno ≥ 0 ∧ regno ≠ (i : Int)
    · rw [check_world_other _ _ _ _ hf hc.1 hc.2]
      rcases h with h | h
      · exact absurd h hc.2
      · exact supply_register_registers_out _ _ _ _ h
    · rw [check_world_same _ _ _ _ hf hc]
      rfl

theorem check_world_valid_out (regno : Int) (state : Mem) (w : World) (i r : Nat)
    (h : regno = (i : Int) ∨ r ≠ i) :
    (check_world regno state w i).register_valid r = w.register_valid r := by
  by_cases hf : w.thread.fetched_regs &&& (1 <<< i) = 0
  · rw [check_world_unfetched _ _ _ _ hf]
  · by_cases hc : regno ≥ 0 ∧ regno ≠ (i : Int)
    · rw [check_world_other _ _ _ _ hf hc.1 hc.2]
      rcases h with h | h
      · exact absurd h hc.2
      · exact supply_register_valid_other _ _ _ _ h
    · rw [check_world_same _ _ _ _ hf hc]
      rfl

theorem check_loop_registers_out (regno : Int) (state : Mem) (l : List Nat) (w : World)
    (a : Nat)
    (h : ∀ i ∈ l, regno = (i : Int) ∨ a < REGISTER_BYTE i ∨
      REGISTER_BYTE i + REGISTER_RAW_SIZE i ≤ a) :
    (l.foldl (check_world regno state) w).registers a = w.registers a := by
  induction l generalizing w with
  | nil => rfl
  | cons x l ih =>
    rw [List.foldl_cons, ih _ (fun i hi => h i (List.mem_cons_of_mem _ hi)),
      check_world_registers_out _ _ _ _ _ (h x (List.mem_cons_self _ _))]

theorem check_loop_valid_out (regno : Int) (state : Mem) (l : List Nat) (w : World) (r : Nat)
    (h : ∀ i ∈ l, regno = (i : Int) ∨ r ≠ i) :
    (l.foldl (check_world regno state) w).register_valid r = w.register_valid r := by
  induction l generalizing w with
  | nil => rfl
  | cons x l ih =>
    rw [List.foldl_cons, ih _ (fun i hi => h i (List.mem_cons_of_mem _ hi)),
      check_world_valid_out _ _ _ _ _ (h x (List.mem_cons_self _ _))]

/-- With `regno == -1` the loop only prints warnings: the cache is not
written. -/
theorem check_loop_all_cache (state : Mem) (l : List Nat) (w : World) :
    (l.foldl (check_world (-1) state) w).registers = w.registers ∧
    (l.foldl (check_world (-1) state) w).register_valid = w.register_valid := by
  induction l generalizing w with
  | nil => exact ⟨rfl, rfl⟩
  | cons x l ih =>
    rw [List.foldl_cons, (ih _).1, (ih _).2]
    by_cases hf : w.thread.fetched_regs &&& (1 <<< x) = 0
    · rw [check_world_unfetched _ _ _ _ hf]
      exact ⟨rfl, rfl⟩
    · rw [check_world_same _ _ _ _ hf (by omega)]
      exact ⟨rfl, rfl⟩

theorem check_world_warnings (regno : Int) (state : Mem) (w : World) (i : Nat) :
    (check_world regno state w i).warnings =
      w.warnings ++ check_msgs regno w.thread.fetched_regs [i] := by
  by_cases hf : w.thread.fetched_regs &&& (1 <<< i) = 0
  · rw [check_world_unfetched _ _ _ _ hf]
    simp [check_msgs, hf]
  · by_cases hc : regno ≥ 0 ∧ regno ≠ (i : Int)
    · rw [check_world_other _ _ _ _ hf hc.1 hc.2, supply_register_warnings]
      simp [check_msgs, hf, hc, warning]
    · rw [check_world_same _ _ _ _ hf hc]
      simp only [check_msgs, if_pos hf, if_neg hc, warning, List.append_nil,
        List.append_assoc, List.singleton_append]

theorem check_msgs_cons (regno : Int) (f : Nat) (i : Nat) (l : List Nat) :
    check_msgs regno f (i :: l) = check_msgs regno f [i] ++ check_msgs regno f l := by
  simp [check_msgs]

/-- The warnings of the loop are exactly `check_msgs`. -/
theorem check_loop_warnings (regno : Int) (state : Mem) (l : List Nat) (w : World) :
    (l.foldl (check_world regno state) w).warnings =
      w.warnings ++ check_msgs regno w.thread.fetched_regs l := by
  induction l generalizing w with
  | nil => simp [check_msgs]
  | cons x l ih =>
    rw [List.foldl_cons, ih, check_world_warnings, check_world_thread,
      check_msgs_cons regno _ x l, List.append_assoc]

theorem changed_mem_check_msgs (regno : Int) (f : Nat) (l : List Nat) (i : Nat)
    (hi : i ∈ l) (hf : f &&& (1 <<< i) ≠ 0) : Msg.changed i ∈ check_msgs regno f l := by
  induction l with
  | nil => cases hi
  | cons x l ih =>
    rw [check_msgs_cons, List.mem_append]
    rcases List.mem_cons.1 hi with heq | hin
    · subst heq
      left
      simp only [check_msgs, if_pos hf]
      split_ifs <;> simp
    · exact Or.inr (ih hin)

theorem changed_mem_check_msgs_iff (regno : Int) (f : Nat) (l : List Nat) (i : Nat) :
    Msg.changed i ∈ check_msgs regno f l ↔ i ∈ l ∧ f &&& (1 <<< i) ≠ 0 := by
  constructor
  · intro h
    induction l with
    | nil => simp [check_msgs] at h
    | cons x l ih =>
      rw [check_msgs_cons, List.mem_append] at h
      rcases h with h | h
      · simp only [check_msgs] at h
        split_ifs at h with h1 h2 <;> simp at h
        · subst h
          exact ⟨List.mem_cons_self _ _, h1⟩
        · subst h
          exact ⟨List.mem_cons_self _ _, h1⟩
      · exact ⟨List.mem_cons_of_mem _ (ih h).1, (ih h).2⟩
  · intro h
    exact changed_mem_check_msgs regno f l i h.1 h.2

theorem also_writing_infix_check_msgs (regno : Int) (f : Nat) (l : List Nat) (i : Nat)
    (hi : i ∈ l) (hf : f &&& (1 <<< i) ≠ 0) (hc : ¬ (regno ≥ 0 ∧ regno ≠ (i : Int))) :
    [Msg.changed i, Msg.also_writing] <:+: check_msgs regno f l := by
  induction l with
  | nil => cases hi
  | cons x l ih =>
    rw [check_msgs_cons]
    rcases List.mem_cons.1 hi with heq | hin
    · subst heq
      refine ⟨[], check_msgs regno f l, ?_⟩
      simp [check_msgs, hf, hc]
    · obtain ⟨s, t, hst⟩ := ih hin
      refine ⟨check_msgs regno f [x] ++ s, t, ?_⟩
      rw [← hst]
      simp

/-- A fetched register other than the one being stored has its cache
entry replaced by the bytes of the block just obtained. -/
theorem check_loop_registers_in (regno : Int) (state : Mem) (l : List Nat) (w : World)
    (r j : Nat) (hl : ∀ k ∈ l, k < 16) (hnd : l.Nodup) (hr : r ∈ l)
    (hf : w.thread.fetched_regs &&& (1 <<< r) ≠ 0) (h1 : regno ≥ 0) (h2 : regno ≠ (r : Int))
    (hj : j < 4) :
    (l.foldl (check_world regno state) w).registers (REGISTER_BYTE r + j) =
      state (reg_offset r + j) := by
  induction l generalizing w with
  | nil => cases hr
  | cons x l ih =>
    rw [List.foldl_cons]
    rw [List.nodup_cons] at hnd
    have hl' : ∀ k ∈ l, k < 16 := fun k hk => hl k (List.mem_cons_of_mem _ hk)
    have hx : x < 16 := hl x (List.mem_cons_self _ _)
    rcases List.mem_cons.1 hr with heq | hin
    · subst heq
      rw [check_loop_registers_out, check_world_other _ _ _ _ hf h1 h2,
        supply_register_registers_in _ _ _ _ (by rw [REGISTER_RAW_SIZE_greg r hx]; exact hj)]
      · rfl
      · intro k hk
        right
        have hne : r ≠ k := fun e => hnd.1 (e ▸ hk)
        exact REGISTER_BYTE_disjoint r k j (by omega) (by have := hl' k hk; omega) hne
          (by rw [REGISTER_RAW_SIZE_greg r hx]; exact hj)
    · exact ih _ hl' hnd.2 hin (by rw [check_world_thread]; exact hf)

/-! ## The stages of gnu_store_registers -/

theorem reconciled_thread (w : World) (regno : Int) (state : Mem) :
    (reconciled w regno state).thread = (proc_get_state w.thread true (some state)).1 := by
  unfold reconciled
  simp only
  split_ifs
  · rw [check_regs_eq, check_loop_thread]
  · rfl

theorem reconciled_fetched (w : World) (regno : Int) (state : Mem) :
    (reconciled w regno state).thread.fetched_regs = w.thread.fetched_regs := by
  rw [reconciled_thread]
  rfl

theorem reconciled_fpu (w : World) (regno : Int) (state : Mem) :
    (reconciled w regno state).fpu = w.fpu := by
  unfold reconciled
  simp only
  split_ifs
  · rw [check_regs_eq, check_loop_fpu]
  · rfl

theorem reconciled_all_cache (w : World) (state : Mem) :
    (reconciled w (-1) state).registers = w.registers ∧
    (reconciled w (-1) state).register_valid = w.register_valid := by
  unfold reconciled
  simp only
  split_ifs
  · rw [check_regs_eq, (check_loop_all_cache _ _ _).1, (check_loop_all_cache _ _ _).2]
    exact ⟨rfl, rfl⟩
  · exact ⟨rfl, rfl⟩

/-- The entry of the register being stored is not touched by the
comparison. -/
theorem reconciled_target (w : World) (r : Nat) (state : Mem) :
    (∀ a, REGISTER_BYTE r ≤ a → a < REGISTER_BYTE r + REGISTER_RAW_SIZE r →
      (reconciled w r state).registers a = w.registers a) ∧
    (reconciled w r state).register_valid r = w.register_valid r := by
  unfold reconciled
  simp only
  split_ifs
  · rw [check_regs_eq]
    refine ⟨fun a h1 h2 => ?_, ?_⟩
    · rw [check_loop_registers_out]
      intro i hi
      have hi16 : i < 16 := range16_lt i hi
      by_cases e : r = i
      · left
        rw [e]
      · right
        by_cases hr : r < 32
        · have := REGISTER_BYTE_disjoint r i (a - REGISTER_BYTE r) hr (by omega) e (by omega)
          omega
        · have hs : REGISTER_RAW_SIZE r = 4 := by
            simp only [REGISTER_RAW_SIZE, FP0_REGNUM, FP7_REGNUM]
            split_ifs <;> omega
          have hb : REGISTER_BYTE r = 144 + 4 * (r - 24) := by
            simp only [REGISTER_BYTE, FP0_REGNUM, FP7_REGNUM, FIRST_FPU_CTRL_REGNUM]
            split_ifs <;> omega
          rw [REGISTER_BYTE_greg i hi16, REGISTER_RAW_SIZE_greg i hi16]
          omega
    · rw [check_loop_valid_out]
      intro i _
      by_cases e : r = i
      · left
        rw [e]
      · exact Or.inr e
  · exact ⟨fun _ _ _ => rfl, rfl⟩

theorem reconciled_warnings (w : World) (regno : Int) (state : Mem)
    (h1 : w.thread.aborted = false) (h2 : w.thread.state_valid = true) :
    (reconciled w regno state).warnings =
      w.warnings ++ check_msgs regno w.thread.fetched_regs (List.range NUM_GREGS) := by
  unfold reconciled
  simp only [h1, h2, Bool.not_false, Bool.and_self, if_true]
  rw [check_regs_eq, check_loop_warnings]
  rfl

theorem reconciled_drifted (w : World) (r k j : Nat) (state : Mem)
    (h1 : w.thread.aborted = false) (h2 : w.thread.state_valid = true)
    (hk : k < 16) (hne : k ≠ r) (hf : w.thread.fetched_regs &&& (1 <<< k) ≠ 0) (hj : j < 4) :
    (reconciled w r state).registers (REGISTER_BYTE k + j) = state (reg_offset k + j) := by
  unfold reconciled
  simp only [h1, h2, Bool.not_false, Bool.and_self, if_true]
  rw [check_regs_eq]
  exact check_loop_registers_in _ _ _ _ k j range16_lt (List.nodup_range _)
    (List.mem_range.2 hk) hf (by omega) (by omega) hj

/-- The general-register part of a store of all registers. -/
theorem store_gregs_all (e : Env) (w : World) (state : Mem) (hget : e.get_state = some state) :
    store_gregs e w (-1) =
      Except.ok { reconciled w (-1) state with thread :=
        { (reconciled w (-1) state).thread with
          state := fill_all (reconciled w (-1) state).registers
            (reconciled w (-1) state).register_valid (List.range NUM_GREGS) state } } := by
  unfold store_gregs reconciled
  simp [hget, proc_get_state]

/-- The general-register part of a store of one general register. -/
theorem store_gregs_single (e : Env) (w : World) (r : Nat) (state : Mem) (hr : r < 16)
    (hget : e.get_state = some state) :
    store_gregs e w (r : Int) =
      if (reconciled w r state).register_valid r = 0 then
        Except.error (Outcome.assertion_failed (reconciled w r state))
      else
        Except.ok { reconciled w r state with thread :=
          { (reconciled w r state).thread with
            state := fill (reconciled w r state).registers state r } } := by
  have h1 : ((r : Int) < (NUM_GREGS : Int) ∨ (r : Int) = -1) := by
    left
    simp only [NUM_GREGS]
    omega
  have h2 : ¬ ((r : Int) = -1) := by omega
  unfold store_gregs reconciled
  simp only [if_pos h1, hget, proc_get_state, if_neg h2, Int.toNat_ofNat]

/-! ## Fetching all registers -/

theorem fetch_loop_eq (state : Mem) (w : World) :
    (List.range NUM_GREGS).foldl (fun w i => supply_register w i (some (REG_ADDR state i))) w =
      supply_all ((List.range NUM_GREGS).map (fun i => (i, some (REG_ADDR state i)))) w := by
  unfold supply_all
  rw [List.foldl_map]

theorem fetched_gregs_fpu (w : World) (state : Mem) : (fetched_gregs w state).fpu = w.fpu := by
  unfold fetched_gregs
  simp only
  rw [fetch_loop_eq, supply_all_fpu]

theorem fetched_gregs_registers (w : World) (state : Mem) (i j : Nat) (hi : i < 16)
    (hj : j < 4) :
    (fetched_gregs w state).registers (REGISTER_BYTE i + j) = state (reg_offset i + j) := by
  unfold fetched_gregs
  simp only
  rw [fetch_loop_eq]
  have hi' : i < NUM_GREGS := hi
  rw [supply_all_registers_in _ _ i j (REG_ADDR state i)
    (List.mem_map.2 ⟨i, List.mem_range.2 hi', rfl⟩)
    (by
      rw [List.map_map]
      have hid : (Prod.fst ∘ fun i => (i, some (REG_ADDR state i))) = (id : Nat → Nat) := rfl
      rw [hid, List.map_id]
      exact List.nodup_range _)
    (by
      intro c hc
      obtain ⟨k, hk, rfl⟩ := List.mem_map.1 hc
      have := List.mem_range.1 hk
      simp only [NUM_GREGS] at this
      show k < 32
      omega)
    (by rw [REGISTER_RAW_SIZE_greg i hi]; exact hj)]
  rfl

/-- The general-register part of a fetch of all registers. -/
theorem fetch_gregs_all (e : Env) (w : World) (state : Mem) (hget : e.get_state = some state) :
    fetch_gregs e w (-1) = Except.ok (fetched_gregs w state) := by
  unfold fetch_gregs fetched_gregs
  simp [hget, proc_get_state]

/-- A successful fetch of all registers. -/
theorem gnu_fetch_registers_all (e : Env) (w : World) (state : Mem)
    (hfound : e.thread_found = true) (hget : e.get_state = some state)
    (hfloat : e.float_get_ok = true) :
    gnu_fetch_registers e w (-1) =
      Outcome.returned (supply_all (fetch_fpregs_supplies w.fpu) (fetched_gregs w state)) := by
  unfold gnu_fetch_registers
  rw [fetch_gregs_all e w state hget]
  simp [hfound, fetch_fpregs, hfloat, fetched_gregs_fpu]

/-! ## Encoding what was just decoded -/

theorem fill_stack_slot_eq_self (valid : Option (Nat → Int)) (regs ep : Mem) (i : Nat)
    (hi : i < 8) (h : ∀ j, j < 10 → regs (64 + 10 * i + j) = ep (28 + 10 * i + j)) :
    fill_stack_slot valid regs ep i = ep := by
  unfold fill_stack_slot
  have hsz : REGISTER_RAW_SIZE (FP0_REGNUM + i) = 10 := by
    simp only [REGISTER_RAW_SIZE, FP0_REGNUM, FP7_REGNUM]
    split_ifs <;> omega
  have hby : REGISTER_BYTE (FP0_REGNUM + i) = 64 + 10 * i := by
    simp only [REGISTER_BYTE, FP0_REGNUM, FP7_REGNUM, FIRST_FPU_CTRL_REGNUM]
    split_ifs <;> omega
  rw [hsz, hby]
  unfold env387.regs
  rw [memcpy_eq_self _ _ _ _ _ h, ite_self]

theorem stack_loop_eq_self (valid : Option (Nat → Int)) (regs ep : Mem) (l : List Nat)
    (hl : ∀ i ∈ l, i < 8)
    (h : ∀ i j, i < 8 → j < 10 → regs (64 + 10 * i + j) = ep (28 + 10 * i + j)) :
    l.foldl (fill_stack_slot valid regs) ep = ep := by
  induction l with
  | nil => rfl
  | cons x l ih =>
    have hx := hl x (List.mem_cons_self _ _)
    rw [List.foldl_cons, fill_stack_slot_eq_self _ _ _ _ hx (fun j hj => h x j hx hj)]
    exact ih (fun i hi => hl i (List.mem_cons_of_mem _ hi))

theorem fill387_eq_self (valid : Option (Nat → Int)) (regs ep : Mem) (m sz r : Nat)
    (h : ∀ j, j < sz → regs (REGISTER_BYTE r + j) = ep (m + j)) :
    fill387 valid regs ep m sz r = ep := by
  unfold fill387
  rw [memcpy_eq_self _ _ _ _ _ h, ite_self]

theorem assign16_eq_self (valid : Option (Nat → Int)) (ep : Mem) (m r v : Nat)
    (h : v = load16 ep m) : assign16 valid ep m r v = ep := by
  unfold assign16
  rw [h, store16_load16_self, ite_self]

/-- Encoding a cache whose floating-point entries hold what the block
holds leaves the block as it is, whatever the mask. -/
theorem convert_eq_self (registers ep regs : Mem) (valid : Option (Nat → Int))
    (hS : ∀ i j, i < 8 → j < 10 → regs (64 + 10 * i + j) = ep (28 + 10 * i + j))
    (hctl : ∀ j, j < 2 → regs (REGISTER_BYTE 24 + j) = ep (0 + j))
    (hstat : ∀ j, j < 2 → regs (REGISTER_BYTE 25 + j) = ep (4 + j))
    (htag : ∀ j, j < 2 → regs (REGISTER_BYTE 26 + j) = ep (8 + j))
    (heip : ∀ j, j < 4 → regs (REGISTER_BYTE 28 + j) = ep (12 + j))
    (hopd : ∀ j, j < 4 → regs (REGISTER_BYTE 30 + j) = ep (20 + j))
    (hds : ∀ j, j < 2 → regs (REGISTER_BYTE 29 + j) = ep (24 + j))
    (hcs : load32 registers 156 % 65536 = load16 ep 16)
    (hop : load32 registers 172 % 2048 = load16 ep 18) :
    convert_to_env387 registers ep regs valid = ep := by
  unfold convert_to_env387
  simp only [env387.control, env387.status, env387.tag, env387.eip, env387.operand,
    env387.operand_seg, env387.code_seg, env387.opcode, FCTRL_REGNUM, FSTAT_REGNUM,
    FTAG_REGNUM, FCOFF_REGNUM, FDOFF_REGNUM, FDS_REGNUM, FCS_REGNUM, FOP_REGNUM]
  have hb27 : REGISTER_BYTE 27 = 156 := by decide
  have hb31 : REGISTER_BYTE 31 = 172 := by decide
  rw [stack_loop_eq_self _ _ _ _ range8_lt hS, fill387_eq_self _ _ _ _ _ _ hctl,
    fill387_eq_self _ _ _ _ _ _ hstat, fill387_eq_self _ _ _ _ _ _ htag,
    fill387_eq_self _ _ _ _ _ _ heip, fill387_eq_self _ _ _ _ _ _ hopd,
    fill387_eq_self _ _ _ _ _ _ hds,
    assign16_eq_self _ _ 16 27 _ (by rw [mask16, hb27]; exact hcs),
    assign16_eq_self _ _ 18 31 _ (by rw [mask11, hb31]; exact hop)]

/-! ## Claims -/

/-- C2 (counterexample): the control-word entry of the cache is four
bytes wide; with 0x00010000 in it and an initialized block of zero bytes,
encoding and decoding yields zero in the third byte, not the 1 the cache
held. -/
theorem C2_counterexample :
    (initialized_state zeroMem).initialized ≠ 0 ∧
    2 < REGISTER_RAW_SIZE FCTRL_REGNUM ∧
    (wide_control_world.registers (REGISTER_BYTE FCTRL_REGNUM + 2)).val = 1 ∧
    ((encode_decode wide_control_world (initialized_state zeroMem)).registers
      (REGISTER_BYTE FCTRL_REGNUM + 2)).val = 0 := by
  decide

/-- C2 (amended): for an initialized block, encoding the cache with no
mask and decoding again gives back every byte of the entries of the eight
stack registers, of the instruction offset and of the operand offset, and
the low two bytes (the width of the member in the block) of the entries of
the control word, status word, tag word and operand segment. -/
theorem C2_unmasked_fields_roundtrip (w : World) (st : i386_float_state)
    (h : st.initialized ≠ 0) :
    (∀ i j, i < 8 → j < REGISTER_RAW_SIZE (FP0_REGNUM + i) →
      (encode_decode w st).registers (REGISTER_BYTE (FP0_REGNUM + i) + j) =
        w.registers (REGISTER_BYTE (FP0_REGNUM + i) + j)) ∧
    (∀ r j, r = FCOFF_REGNUM ∨ r = FDOFF_REGNUM → j < REGISTER_RAW_SIZE r →
      (encode_decode w st).registers (REGISTER_BYTE r + j) = w.registers (REGISTER_BYTE r + j)) ∧
    (∀ r j, r = FCTRL_REGNUM ∨ r = FSTAT_REGNUM ∨ r = FTAG_REGNUM ∨ r = FDS_REGNUM → j < 2 →
      (encode_decode w st).registers (REGISTER_BYTE r + j) = w.registers (REGISTER_BYTE r + j)) := by
  have hi : (encode w st).initialized ≠ 0 := h
  refine ⟨?_, ?_, ?_⟩
  · intro i j hi8 hj
    have hb : REGISTER_BYTE (FP0_REGNUM + i) = 64 + 10 * i := by
      simp only [REGISTER_BYTE, FP0_REGNUM, FP7_REGNUM, FIRST_FPU_CTRL_REGNUM]
      split_ifs <;> omega
    have hs : REGISTER_RAW_SIZE (FP0_REGNUM + i) = 10 := by
      simp only [REGISTER_RAW_SIZE, FP0_REGNUM, FP7_REGNUM]
      split_ifs <;> omega
    rw [hs] at hj
    rw [hb]
    unfold encode_decode
    rw [decode_stack _ w hi i j hi8 hj]
    show convert_to_env387 w.registers st.hw_state w.registers none (28 + 10 * i + j) = _
    rw [convert_stack _ _ _ _ i j hi8 hj, if_pos (mask_ok_none i)]
  · intro r j hr hj
    unfold encode_decode
    rcases hr with rfl | rfl
    · have hj : j < 4 := hj
      rw [decode_direct _ w hi FCOFF_REGNUM 12 j (by decide) hj]
      show convert_to_env387 w.registers st.hw_state w.registers none (12 + j) = _
      rw [convert_eip _ _ _ _ _ (by omega) (by omega), if_pos (mask_ok_none 28)]
      congr 1
      show 160 + (12 + j - 12) = 160 + j
      omega
    · have hj : j < 4 := hj
      rw [decode_direct _ w hi FDOFF_REGNUM 20 j (by decide) hj]
      show convert_to_env387 w.registers st.hw_state w.registers none (20 + j) = _
      rw [convert_operand _ _ _ _ _ (by omega) (by omega), if_pos (mask_ok_none 30)]
      congr 1
      show 168 + (20 + j - 20) = 168 + j
      omega
  · intro r j hr hj
    unfold encode_decode
    rcases hr with rfl | rfl | rfl | rfl
    · rw [decode_direct _ w hi FCTRL_REGNUM 0 j (by decide) (by omega)]
      show convert_to_env387 w.registers st.hw_state w.registers none (0 + j) = _
      rw [convert_control _ _ _ _ _ (by omega) (by omega), if_pos (mask_ok_none 24)]
      congr 1
      show 144 + (0 + j) = 144 + j
      omega
    · rw [decode_direct _ w hi FSTAT_REGNUM 4 j (by decide) (by omega)]
      show convert_to_env387 w.registers st.hw_state w.registers none (4 + j) = _
      rw [convert_status _ _ _ _ _ (by omega) (by omega), if_pos (mask_ok_none 25)]
      congr 1
      show 148 + (4 + j - 4) = 148 + j
      omega
    · rw [decode_direct _ w hi FTAG_REGNUM 8 j (by decide) (by omega)]
      show convert_to_env387 w.registers st.hw_state w.registers none (8 + j) = _
      rw [convert_tag _ _ _ _ _ (by omega) (by omega), if_pos (mask_ok_none 26)]
      congr 1
      show 152 + (8 + j - 8) = 152 + j
      omega
    · rw [decode_direct _ w hi FDS_REGNUM 24 j (by decide) (by omega)]
      show convert_to_env387 w.registers st.hw_state w.registers none (24 + j) = _
      rw [convert_operand_seg _ _ _ _ _ (by omega) (by omega), if_pos (mask_ok_none 29)]
      congr 1
      show 164 + (24 + j - 24) = 164 + j
      omega

/-- C2 (witness): the amended round trip at a concrete cache and an
initialized block of zero bytes, for the low byte of the control word. -/
theorem C2_unmasked_fields_roundtrip_witness :
    (initialized_state zeroMem).initialized ≠ 0 ∧
    (encode_decode wide_control_world (initialized_state zeroMem)).registers
        (REGISTER_BYTE FCTRL_REGNUM + 0) =
      wide_control_world.registers (REGISTER_BYTE FCTRL_REGNUM + 0) :=
  ⟨by decide,
   (C2_unmasked_fields_roundtrip wide_control_world (initialized_state zeroMem)
      (by decide)).2.2 FCTRL_REGNUM 0 (Or.inl rfl) (by decide)⟩

theorem load32_encode_decode_fcs (w : World) (st : i386_float_state) (h : st.initialized ≠ 0) :
    load32 (encode_decode w st).registers 156 = load32 w.registers 156 % 65536 := by
  rw [load32_of_long_bytes _ 156 _ (fun j hj => encode_decode_fcs w st h j hj)]
  omega

theorem load32_encode_decode_fop (w : World) (st : i386_float_state) (h : st.initialized ≠ 0) :
    load32 (encode_decode w st).registers 172 = load32 w.registers 172 % 2048 := by
  rw [load32_of_long_bytes _ 172 _ (fun j hj => encode_decode_fop w st h j hj)]
  omega

/-- C3: for initialized blocks, encoding and then decoding leaves in the
code-segment entry of the cache its 32-bit value with all bits above the
low 16 cleared, and in the opcode entry its value with all bits above the
low 11 cleared; encoding and decoding that result once more gives the same
four bytes in both entries. -/
theorem C3_masked_fields_roundtrip (w : World) (st st2 : i386_float_state)
    (h : st.initialized ≠ 0) (h2 : st2.initialized ≠ 0) :
    load32 (encode_decode w st).registers (REGISTER_BYTE FCS_REGNUM) =
      load32 w.registers (REGISTER_BYTE FCS_REGNUM) % 2 ^ 16 ∧
    load32 (encode_decode w st).registers (REGISTER_BYTE FOP_REGNUM) =
      load32 w.registers (REGISTER_BYTE FOP_REGNUM) % 2 ^ 11 ∧
    (∀ j, j < REGISTER_RAW_SIZE FCS_REGNUM →
      (encode_decode (encode_decode w st) st2).registers (REGISTER_BYTE FCS_REGNUM + j) =
        (encode_decode w st).registers (REGISTER_BYTE FCS_REGNUM + j)) ∧
    (∀ j, j < REGISTER_RAW_SIZE FOP_REGNUM →
      (encode_decode (encode_decode w st) st2).registers (REGISTER_BYTE FOP_REGNUM + j) =
        (encode_decode w st).registers (REGISTER_BYTE FOP_REGNUM + j)) := by
  refine ⟨load32_encode_decode_fcs w st h, load32_encode_decode_fop w st h, ?_, ?_⟩
  · intro j hj
    have hj : j < 4 := hj
    show (encode_decode (encode_decode w st) st2).registers (156 + j) =
      (encode_decode w st).registers (156 + j)
    rw [encode_decode_fcs _ st2 h2 j hj, encode_decode_fcs w st h j hj,
      load32_encode_decode_fcs w st h]
    congr 1
    omega
  · intro j hj
    have hj : j < 4 := hj
    show (encode_decode (encode_decode w st) st2).registers (172 + j) =
      (encode_decode w st).registers (172 + j)
    rw [encode_decode_fop _ st2 h2 j hj, encode_decode_fop w st h j hj,
      load32_encode_decode_fop w st h]
    congr 1
    omega

/-- C3 (witness): the round trip of the masked fields at a concrete cache
and initialized blocks of zero bytes. -/
theorem C3_masked_fields_roundtrip_witness :
    (initialized_state zeroMem).initialized ≠ 0 ∧
    load32 (encode_decode wide_control_world (initialized_state zeroMem)).registers
        (REGISTER_BYTE FCS_REGNUM) =
      load32 wide_control_world.registers (REGISTER_BYTE FCS_REGNUM) % 2 ^ 16 :=
  ⟨by decide,
   (C3_masked_fields_roundtrip wide_control_world (initialized_state zeroMem)
      (initialized_state zeroMem) (by decide) (by decide)).1⟩

/-- C5: when the floating-point state read from the kernel is not
initialized, a successful `fetch_fpregs` consists of `supply_register`
calls that pass a null value for each of FP0..FP7 and for each control
pseudo-register from the first to the last, and no call passes bytes. -/
theorem C5_uninitialized_supplies_no_value (e : Env) (w : World)
    (hok : e.float_get_ok = true) (hinit : w.fpu.initialized = 0) :
    fetch_fpregs e w = supply_all (fetch_fpregs_supplies w.fpu) w ∧
    (∀ i, FP0_REGNUM ≤ i → i ≤ FP7_REGNUM → (i, none) ∈ fetch_fpregs_supplies w.fpu) ∧
    (∀ i, FIRST_FPU_CTRL_REGNUM ≤ i → i ≤ LAST_FPU_CTRL_REGNUM →
      (i, none) ∈ fetch_fpregs_supplies w.fpu) ∧
    (∀ c ∈ fetch_fpregs_supplies w.fpu, c.2 = none) := by
  refine ⟨by simp [fetch_fpregs, hok], ?_, ?_, ?_⟩
  · intro i h1 h2
    rw [fetch_fpregs_supplies_uninitialized _ hinit]
    simp only [FP0_REGNUM, FP7_REGNUM] at h1 h2
    simp only [List.mem_append, List.mem_map, List.mem_range'_1]
    exact Or.inl ⟨i, ⟨h1, by omega⟩, rfl⟩
  · intro i h1 h2
    rw [fetch_fpregs_supplies_uninitialized _ hinit]
    simp only [FIRST_FPU_CTRL_REGNUM, LAST_FPU_CTRL_REGNUM] at h1 h2
    simp only [List.mem_append, List.mem_map, List.mem_range'_1]
    exact Or.inr ⟨i, ⟨h1, by omega⟩, rfl⟩
  · intro c hc
    rw [fetch_fpregs_supplies_uninitialized _ hinit] at hc
    simp only [List.mem_append, List.mem_map, List.mem_range'_1] at hc
    rcases hc with ⟨k, _, rfl⟩ | ⟨k, _, rfl⟩ <;> rfl

/-- C5 (witness): an uninitialized state with a block of zero bytes; the
control word is supplied as a null value. -/
theorem C5_uninitialized_supplies_no_value_witness :
    (env_ok zeroMem).float_get_ok = true ∧
    (fresh_world (uninitialized_state zeroMem)).fpu.initialized = 0 ∧
    (FCTRL_REGNUM, none) ∈
      fetch_fpregs_supplies (fresh_world (uninitialized_state zeroMem)).fpu :=
  ⟨rfl, rfl,
   (C5_uninitialized_supplies_no_value (env_ok zeroMem)
      (fresh_world (uninitialized_state zeroMem)) rfl rfl).2.2.1 FCTRL_REGNUM
        (by decide) (by decide)⟩

theorem store_fpregs_thread (e : Env) (w : World) : (store_fpregs e w).thread = w.thread := by
  unfold store_fpregs
  split_ifs <;> rfl

theorem store_fpregs_registers (e : Env) (w : World) :
    (store_fpregs e w).registers = w.registers := by
  unfold store_fpregs
  split_ifs <;> rfl

theorem store_fpregs_valid (e : Env) (w : World) :
    (store_fpregs e w).register_valid = w.register_valid := by
  unfold store_fpregs
  split_ifs <;> rfl

/-- A store of one general register: the assertion, then the store. -/
theorem gnu_store_registers_single (e : Env) (w : World) (r : Nat) (state : Mem)
    (hr : r < 16) (hfound : e.thread_found = true) (hget : e.get_state = some state) :
    gnu_store_registers e w (r : Int) =
      if (reconciled w r state).register_valid r = 0 then
        Outcome.assertion_failed (reconciled w r state)
      else
        Outcome.returned { reconciled w r state with thread :=
          { (reconciled w r state).thread with
            state := fill (reconciled w r state).registers state r } } := by
  have h1 : ¬ ((r : Int) < -1) := by omega
  have h2 : ¬ ((r : Int) ≥ (NUM_GREGS : Int) ∨ (r : Int) = -1) := by
    simp only [NUM_GREGS]
    omega
  unfold gnu_store_registers
  rw [store_gregs_single e w r state hr hget]
  simp only [hfound, if_neg h1, Bool.true_eq_false, if_false]
  by_cases hv : (reconciled w r state).register_valid r = 0
  · simp only [if_pos hv]
  · simp only [if_neg hv, if_neg h2]

/-- A store of all registers returns, whatever the floating-point calls
do. -/
theorem gnu_store_registers_all (e : Env) (w : World) (state : Mem)
    (hfound : e.thread_found = true) (hget : e.get_state = some state) :
    gnu_store_registers e w (-1) =
      Outcome.returned (store_fpregs e
        { reconciled w (-1) state with thread :=
          { (reconciled w (-1) state).thread with
            state := fill_all (reconciled w (-1) state).registers
              (reconciled w (-1) state).register_valid (List.range NUM_GREGS) state } }) := by
  unfold gnu_store_registers
  rw [store_gregs_all e w state hget]
  simp [hfound]

/-- C4 (the code at the failing input): with a mask in which eax is valid
and FP0 is not, stack slot 0 of a block of zero bytes is overwritten from
the cache entry of FP0; with a mask in which FP0 is valid and eax is not,
stack slot 0 is left as it was. -/
theorem C4_stack_slot_uses_general_index :
    eax_only_mask FP0_REGNUM = 0 ∧
    (zeroMem (env387.regs 0)).val = 0 ∧
    (convert_to_env387 fp0_one zeroMem fp0_one (some eax_only_mask) (env387.regs 0)).val = 1 ∧
    fp0_only_mask FP0_REGNUM ≠ 0 ∧
    (fp0_one (REGISTER_BYTE FP0_REGNUM)).val = 1 ∧
    (convert_to_env387 fp0_one zeroMem fp0_one (some fp0_only_mask) (env387.regs 0)).val = 0 := by
  decide

/-- C6 (the code at the failing input): the old snapshot and the block
returned by the forced halt are both zero bytes, eax was fetched, and a
store of ecx still prints the warning that eax changed. -/
theorem C6_warning_without_drift :
    snapshot_world.thread.state = zeroMem ∧
    (env_ok zeroMem).get_state = some zeroMem ∧
    (gnu_store_registers (env_ok zeroMem) snapshot_world 1).world?.map (fun w => w.warnings) =
      some [Msg.changed 0] := by
  refine ⟨rfl, rfl, ?_⟩
  decide

/-- C7: when the thread had a valid snapshot and was not already halted,
R was fetched and differs between the old snapshot and the block obtained
by the forced halt, a store of another general register R', valid in the
cache, returns having printed the warning that R changed, with the cache
entry of R equal to the bytes of R in the new block and the bytes of R' in
the block equal to the cache bytes of R'. -/
theorem C7_store_other_register (e : Env) (w : World) (state : Mem) (R R' : Nat)
    (hR : R < NUM_GREGS) (hR' : R' < NUM_GREGS) (hne : R ≠ R')
    (hvalid : w.register_valid R' ≠ 0)
    (hfetched : w.thread.fetched_regs &&& (1 <<< R) ≠ 0)
    (hsnap : w.thread.state_valid = true) (hrun : w.thread.aborted = false)
    (hfound : e.thread_found = true) (hhalt : e.get_state = some state)
    (hdiff : ∃ j, j < REGISTER_RAW_SIZE R ∧
      w.thread.state (reg_offset R + j) ≠ state (reg_offset R + j)) :
    ∃ w2 new, gnu_store_registers e w (R' : Int) = Outcome.returned w2 ∧
      w2.warnings = w.warnings ++ new ∧ Msg.changed R ∈ new ∧
      (∀ j, j < REGISTER_RAW_SIZE R →
        w2.registers (REGISTER_BYTE R + j) = state (reg_offset R + j)) ∧
      (∀ j, j < REGISTER_RAW_SIZE R' →
        w2.thread.state (reg_offset R' + j) = w2.registers (REGISTER_BYTE R' + j) ∧
        w2.registers (REGISTER_BYTE R' + j) = w.registers (REGISTER_BYTE R' + j)) := by
  have hR16 : R < 16 := hR
  have hR'16 : R' < 16 := hR'
  have htv := (reconciled_target w R' state).2
  have htr := (reconciled_target w R' state).1
  rw [gnu_store_registers_single e w R' state hR'16 hfound hhalt, if_neg (by rw [htv]; exact hvalid)]
  refine ⟨_, _, rfl, reconciled_warnings w R' state hrun hsnap, ?_, ?_, ?_⟩
  · exact changed_mem_check_msgs _ _ _ R (List.mem_range.2 hR) hfetched
  · intro j hj
    rw [REGISTER_RAW_SIZE_greg R hR16] at hj
    exact reconciled_drifted w R' R j state hrun hsnap hR16 hne hfetched hj
  · intro j hj
    have hj4 : j < 4 := by rw [REGISTER_RAW_SIZE_greg R' hR'16] at hj; exact hj
    exact ⟨fill_apply_in _ _ _ _ hR'16 hj4, htr _ (by omega) (by omega)⟩

/-- C7 (witness): eax fetched, snapshot of zero bytes, the forced halt
returns a block in which eax is 1, and ecx is stored. -/
theorem C7_store_other_register_witness :
    ∃ w2 new, gnu_store_registers (env_ok eax_one) snapshot_world ((1 : Nat) : Int) =
        Outcome.returned w2 ∧
      w2.warnings = snapshot_world.warnings ++ new ∧ Msg.changed 0 ∈ new ∧
      (∀ j, j < REGISTER_RAW_SIZE 0 →
        w2.registers (REGISTER_BYTE 0 + j) = eax_one (reg_offset 0 + j)) ∧
      (∀ j, j < REGISTER_RAW_SIZE 1 →
        w2.thread.state (reg_offset 1 + j) = w2.registers (REGISTER_BYTE 1 + j) ∧
        w2.registers (REGISTER_BYTE 1 + j) = snapshot_world.registers (REGISTER_BYTE 1 + j)) :=
  C7_store_other_register (env_ok eax_one) snapshot_world eax_one 0 1 (by decide) (by decide)
    (by decide) (by decide) (by decide) rfl rfl rfl rfl ⟨0, by decide, by decide⟩

/-- C8: when the thread had a valid snapshot and was not already halted,
and R is valid, fetched and differs between the old snapshot and the block
obtained by the forced halt, a store of R itself returns having printed the
warning that R changed directly followed by the warning that R is also
being written, with the cache entry of R as the caller left it and the
bytes of R in the block equal to that cached value. -/
theorem C8_store_same_register (e : Env) (w : World) (state : Mem) (R : Nat)
    (hR : R < NUM_GREGS) (hvalid : w.register_valid R ≠ 0)
    (hfetched : w.thread.fetched_regs &&& (1 <<< R) ≠ 0)
    (hsnap : w.thread.state_valid = true) (hrun : w.thread.aborted = false)
    (hfound : e.thread_found = true) (hhalt : e.get_state = some state)
    (hdiff : ∃ j, j < REGISTER_RAW_SIZE R ∧
      w.thread.state (reg_offset R + j) ≠ state (reg_offset R + j)) :
    ∃ w2 new, gnu_store_registers e w (R : Int) = Outcome.returned w2 ∧
      w2.warnings = w.warnings ++ new ∧
      [Msg.changed R, Msg.also_writing] <:+: new ∧
      (∀ j, j < REGISTER_RAW_SIZE R →
        w2.registers (REGISTER_BYTE R + j) = w.registers (REGISTER_BYTE R + j) ∧
        w2.thread.state (reg_offset R + j) = w.registers (REGISTER_BYTE R + j)) := by
  have hR16 : R < 16 := hR
  have htv := (reconciled_target w R state).2
  have htr := (reconciled_target w R state).1
  rw [gnu_store_registers_single e w R state hR16 hfound hhalt, if_neg (by rw [htv]; exact hvalid)]
  refine ⟨_, _, rfl, reconciled_warnings w R state hrun hsnap, ?_, ?_⟩
  · exact also_writing_infix_check_msgs _ _ _ R (List.mem_range.2 hR) hfetched (by omega)
  · intro j hj
    have hj4 : j < 4 := by rw [REGISTER_RAW_SIZE_greg R hR16] at hj; exact hj
    refine ⟨htr _ (by omega) (by omega), ?_⟩
    show fill _ state R (reg_offset R + j) = _
    rw [fill_apply_in _ _ _ _ hR16 hj4]
    exact htr _ (by omega) (by omega)

/-- C8 (witness): eax fetched and valid, snapshot of zero bytes, the
forced halt returns a block in which eax is 1, and eax is stored. -/
theorem C8_store_same_register_witness :
    ∃ w2 new, gnu_store_registers (env_ok eax_one) snapshot_world ((0 : Nat) : Int) =
        Outcome.returned w2 ∧
      w2.warnings = snapshot_world.warnings ++ new ∧
      [Msg.changed 0, Msg.also_writing] <:+: new ∧
      (∀ j, j < REGISTER_RAW_SIZE 0 →
        w2.registers (REGISTER_BYTE 0 + j) = snapshot_world.registers (REGISTER_BYTE 0 + j) ∧
        w2.thread.state (reg_offset 0 + j) = snapshot_world.registers (REGISTER_BYTE 0 + j)) :=
  C8_store_same_register (env_ok eax_one) snapshot_world eax_one 0 (by decide) (by decide)
    (by decide) rfl rfl rfl rfl ⟨0, by decide, by decide⟩

/-- C9 (counterexample): the cache entry of the control word is not
valid, every collaborator succeeds, and a store of that single index
returns normally: no assertion fails. -/
theorem C9_counterexample :
    (fresh_world (initialized_state zeroMem)).register_valid FCTRL_REGNUM = 0 ∧
    (gnu_store_registers (env_ok zeroMem) (fresh_world (initialized_state zeroMem))
      (FCTRL_REGNUM : Int)).assertion_failed? = false ∧
    (gnu_store_registers (env_ok zeroMem) (fresh_world (initialized_state zeroMem))
      (FCTRL_REGNUM : Int)).returned? = true := by
  decide

/-- C10: after a store of all registers in which the thread is found and
the forced halt succeeds, the general block holds for each general index
the cache bytes when the index is marked valid and otherwise the bytes the
forced halt returned; bytes outside every general register are those the
forced halt returned; with no general index valid the block is the one the
forced halt returned. -/
theorem C10_store_all_general_block (e : Env) (w : World) (state : Mem)
    (hfound : e.thread_found = true) (hhalt : e.get_state = some state) :
    ∃ w2, gnu_store_registers e w (-1) = Outcome.returned w2 ∧
      (∀ i j, i < NUM_GREGS → j < REGISTER_RAW_SIZE i →
        w2.thread.state (reg_offset i + j) =
          if w.register_valid i ≠ 0 then w.registers (REGISTER_BYTE i + j)
          else state (reg_offset i + j)) ∧
      (∀ a, (∀ i, i < NUM_GREGS → a < reg_offset i ∨ reg_offset i + REGISTER_RAW_SIZE i ≤ a) →
        w2.thread.state a = state a) ∧
      ((∀ i, i < NUM_GREGS → w.register_valid i = 0) → w2.thread.state = state) := by
  rw [gnu_store_registers_all e w state hfound hhalt]
  refine ⟨_, rfl, ?_, ?_, ?_⟩
  · intro i j hi hj
    have hi16 : i < 16 := hi
    rw [REGISTER_RAW_SIZE_greg i hi16] at hj
    rw [store_fpregs_thread]
    show fill_all _ _ _ state (reg_offset i + j) = _
    rw [(reconciled_all_cache w state).1, (reconciled_all_cache w state).2,
      fill_all_apply_in _ _ _ _ i j range16_lt (List.nodup_range _) (List.mem_range.2 hi) hj]
  · intro a ha
    rw [store_fpregs_thread]
    show fill_all _ _ _ state a = _
    apply fill_all_apply_out _ _ _ _ _ range16_lt
    intro i hi
    have hi16 : i < 16 := range16_lt i hi
    have := ha i hi16
    rw [REGISTER_RAW_SIZE_greg i hi16] at this
    exact this
  · intro hall
    rw [store_fpregs_thread]
    show fill_all _ _ _ state = _
    rw [(reconciled_all_cache w state).2]
    exact fill_all_of_invalid _ _ _ _ (fun i hi => hall i (range16_lt i hi))

/-- C10 (witness): an empty cache, every entry invalid, and a block in
which eax is 1: the store of all registers leaves the block as the forced
halt returned it. -/
theorem C10_store_all_general_block_witness :
    ∃ w2, gnu_store_registers (env_ok eax_one) (fresh_world (initialized_state zeroMem)) (-1) =
        Outcome.returned w2 ∧ w2.thread.state = eax_one := by
  obtain ⟨w2, h1, _, _, h4⟩ := C10_store_all_general_block (env_ok eax_one)
    (fresh_world (initialized_state zeroMem)) eax_one rfl rfl
  exact ⟨w2, h1, h4 (fun _ _ => rfl)⟩

/-- C1 (counterexample): an initialized block whose opcode member holds
0x0800; every collaborator succeeds and the general block is the same for
the fetch and the store.  After the fetch of all registers followed by the
store of all registers the high byte of the opcode member is 0, not 8. -/
theorem C1_counterexample :
    opcode_high_state.initialized ≠ 0 ∧
    ((fresh_world opcode_high_state).fpu.hw_state (env387.opcode + 1)).val = 8 ∧
    (fetch_then_store (env_ok zeroMem) (env_ok zeroMem) (fresh_world opcode_high_state)).returned?
      = true ∧
    (fetch_then_store (env_ok zeroMem) (env_ok zeroMem)
        (fresh_world opcode_high_state)).world?.map
      (fun w => (w.fpu.hw_state (env387.opcode + 1)).val) = some 0 := by
  decide

/-- C1 (amended): when the thread is found, the kernel reads, the forced
halt and the write succeed, the forced halt returns the general block the
fetch read, the floating-point block is initialized and the upper five
bits of its opcode member are zero, a fetch of all registers immediately
followed by a store of all registers returns with the general block and
the floating-point state equal to what they were before the fetch. -/
theorem C1_fetch_then_store_identity (e1 e2 : Env) (w : World) (state : Mem)
    (hfound1 : e1.thread_found = true) (hget1 : e1.get_state = some state)
    (hfloat1 : e1.float_get_ok = true)
    (hfound2 : e2.thread_found = true) (hget2 : e2.get_state = some state)
    (hfloat2 : e2.float_get_ok = true) (hset2 : e2.float_set_ok = true)
    (hinit : w.fpu.initialized ≠ 0)
    (hop : load16 w.fpu.hw_state env387.opcode < 2 ^ 11) :
    ∃ w2, fetch_then_store e1 e2 w = Outcome.returned w2 ∧
      w2.thread.state = state ∧ w2.fpu = w.fpu := by
  have hG : ∀ i j, i < 16 → j < 4 →
      (supply_all (fetch_fpregs_supplies w.fpu) (fetched_gregs w state)).registers
        (REGISTER_BYTE i + j) = state (reg_offset i + j) := by
    intro i j hi hj
    rw [decode_registers_low _ _ _ (by rw [REGISTER_BYTE_greg i hi]; omega)]
    exact fetched_gregs_registers w state i j hi hj
  have hfix : convert_to_env387
      (supply_all (fetch_fpregs_supplies w.fpu) (fetched_gregs w state)).registers
      w.fpu.hw_state
      (supply_all (fetch_fpregs_supplies w.fpu) (fetched_gregs w state)).registers
      (some (supply_all (fetch_fpregs_supplies w.fpu) (fetched_gregs w state)).register_valid)
      = w.fpu.hw_state := by
    apply convert_eq_self
    · intro i j hi hj
      exact decode_stack _ _ hinit i j hi hj
    · intro j hj
      exact decode_direct _ _ hinit 24 0 j (by decide) (by omega)
    · intro j hj
      exact decode_direct _ _ hinit 25 4 j (by decide) (by omega)
    · intro j hj
      exact decode_direct _ _ hinit 26 8 j (by decide) (by omega)
    · intro j hj
      exact decode_direct _ _ hinit 28 12 j (by decide) hj
    · intro j hj
      exact decode_direct _ _ hinit 30 20 j (by decide) hj
    · intro j hj
      exact decode_direct _ _ hinit 29 24 j (by decide) (by omega)
    · rw [load32_of_long_bytes _ 156 _ (fun j hj => decode_fcs _ _ hinit j hj)]
      have := load16_lt w.fpu.hw_state 16
      omega
    · rw [load32_of_long_bytes _ 172 _ (fun j hj => decode_fop _ _ hinit j hj)]
      have h18 : load16 w.fpu.hw_state 18 < 2048 := hop
      omega
  unfold fetch_then_store
  rw [gnu_fetch_registers_all e1 w state hfound1 hget1 hfloat1]
  simp only
  rw [gnu_store_registers_all e2 _ state hfound2 hget2]
  refine ⟨_, rfl, ?_, ?_⟩
  · rw [store_fpregs_thread]
    show fill_all _ _ _ state = state
    rw [(reconciled_all_cache _ state).1]
    exact fill_all_eq_self _ _ _ _ range16_lt
      (fun i hi j hj => hG i j (range16_lt i hi) hj)
  · unfold store_fpregs
    simp only [hfloat2, hset2, Bool.true_eq_false, if_false]
    rw [(reconciled_all_cache _ state).1, (reconciled_all_cache _ state).2, reconciled_fpu,
      supply_all_fpu, fetched_gregs_fpu, hfix]

/-- C1 (witness): an empty cache, a running thread, an initialized block
of zero bytes and a general block in which eax is 1. -/
theorem C1_fetch_then_store_identity_witness :
    ∃ w2, fetch_then_store (env_ok eax_one) (env_ok eax_one)
        (fresh_world (initialized_state zeroMem)) = Outcome.returned w2 ∧
      w2.thread.state = eax_one ∧ w2.fpu = (fresh_world (initialized_state zeroMem)).fpu :=
  C1_fetch_then_store_identity (env_ok eax_one) (env_ok eax_one)
    (fresh_world (initialized_state zeroMem)) eax_one rfl rfl rfl rfl rfl rfl rfl
    (by decide) (by decide)

/-! ## Failed kernel calls -/

theorem store_gregs_fail (e : Env) (w : World) (regno : Int)
    (h : regno < (NUM_GREGS : Int) ∨ regno = -1) (hget : e.get_state = none) :
    store_gregs e w regno =
      Except.error (Outcome.returned
        (warning { w with thread := { w.thread with state_valid := false } }
          Msg.couldnt_store_registers)) := by
  unfold store_gregs
  simp only [if_pos h, hget, proc_get_state]

theorem fetch_gregs_fail (e : Env) (w : World) (regno : Int)
    (h : regno < (NUM_GREGS : Int) ∨ regno = -1) (hget : e.get_state = none) :
    fetch_gregs e w regno =
      Except.error (warning { w with thread := { w.thread with state_valid := false } }
        Msg.couldnt_fetch_registers) := by
  unfold fetch_gregs
  simp only [if_pos h, hget, proc_get_state]

/-- A store in which the forced halt fails returns after the warning. -/
theorem gnu_store_registers_fail (e : Env) (w : World) (regno : Int)
    (hlo : -1 ≤ regno) (hhi : regno < (NUM_GREGS : Int))
    (hfound : e.thread_found = true) (hget : e.get_state = none) :
    gnu_store_registers e w regno =
      Outcome.returned
        (warning { w with thread := { w.thread with state_valid := false } }
          Msg.couldnt_store_registers) := by
  unfold gnu_store_registers
  rw [store_gregs_fail e w regno (Or.inl hhi) hget]
  simp only [hfound, Bool.true_eq_false, if_false, if_neg (not_lt.2 hlo)]

/-- A fetch in which the general-register read fails returns after the
warning. -/
theorem gnu_fetch_registers_fail (e : Env) (w : World) (regno : Int)
    (hlo : -1 ≤ regno) (hhi : regno < (NUM_GREGS : Int))
    (hfound : e.thread_found = true) (hget : e.get_state = none) :
    gnu_fetch_registers e w regno =
      Outcome.returned
        (warning { w with thread := { w.thread with state_valid := false } }
          Msg.couldnt_fetch_registers) := by
  unfold gnu_fetch_registers
  rw [fetch_gregs_fail e w regno (Or.inl hhi) hget]
  simp only [hfound, Bool.true_eq_false, if_false, if_neg (not_lt.2 hlo)]

/-- C16: for a single general index or for all registers, when the thread
is found and the forced halt of the store fails, the store returns after
one warning with the cache bytes, the validity bitmap, the fetched bitmap,
the general block and the floating-point state as they were; when the
general-register read of the fetch fails, the fetch returns after one
warning with the cache bytes, the validity bitmap and the fetched bitmap
as they were. -/
theorem C16_failed_halt_keeps_state (e : Env) (w : World) (regno : Int)
    (hlo : -1 ≤ regno) (hhi : regno < (NUM_GREGS : Int))
    (hfound : e.thread_found = true) (hget : e.get_state = none) :
    (∃ w2, gnu_store_registers e w regno = Outcome.returned w2 ∧
      w2.warnings = w.warnings ++ [Msg.couldnt_store_registers] ∧
      w2.registers = w.registers ∧ w2.register_valid = w.register_valid ∧
      w2.thread.fetched_regs = w.thread.fetched_regs ∧
      w2.thread.state = w.thread.state ∧ w2.fpu = w.fpu) ∧
    (∃ w2, gnu_fetch_registers e w regno = Outcome.returned w2 ∧
      w2.warnings = w.warnings ++ [Msg.couldnt_fetch_registers] ∧
      w2.registers = w.registers ∧ w2.register_valid = w.register_valid ∧
      w2.thread.fetched_regs = w.thread.fetched_regs) := by
  constructor
  · rw [gnu_store_registers_fail e w regno hlo hhi hfound hget]
    exact ⟨_, rfl, rfl, rfl, rfl, rfl, rfl, rfl⟩
  · rw [gnu_fetch_registers_fail e w regno hlo hhi hfound hget]
    exact ⟨_, rfl, rfl, rfl, rfl, rfl⟩

/-- C16 (witness): a store and a fetch of all registers on a thread with a
snapshot, with the forced halt and the read failing. -/
theorem C16_failed_halt_keeps_state_witness :
    (∃ w2, gnu_store_registers env_no_gregs snapshot_world (-1) = Outcome.returned w2 ∧
      w2.warnings = snapshot_world.warnings ++ [Msg.couldnt_store_registers] ∧
      w2.registers = snapshot_world.registers ∧
      w2.register_valid = snapshot_world.register_valid ∧
      w2.thread.fetched_regs = snapshot_world.thread.fetched_regs ∧
      w2.thread.state = snapshot_world.thread.state ∧ w2.fpu = snapshot_world.fpu) ∧
    (∃ w2, gnu_fetch_registers env_no_gregs snapshot_world (-1) = Outcome.returned w2 ∧
      w2.warnings = snapshot_world.warnings ++ [Msg.couldnt_fetch_registers] ∧
      w2.registers = snapshot_world.registers ∧
      w2.register_valid = snapshot_world.register_valid ∧
      w2.thread.fetched_regs = snapshot_world.thread.fetched_regs) :=
  C16_failed_halt_keeps_state env_no_gregs snapshot_world (-1) (by decide) (by decide) rfl rfl

/-- C17: a store of all registers never writes the register cache:
whatever the thread record, the snapshot, the fetched bitmap and the
outcomes of the collaborators, the request ends in a world whose cache
bytes and validity bitmap are those it started with. -/
theorem C17_store_all_keeps_cache (e : Env) (w : World) :
    ∃ w2, (gnu_store_registers e w (-1)).world? = some w2 ∧
      w2.registers = w.registers ∧ w2.register_valid = w.register_valid := by
  by_cases hfound : e.thread_found = true
  · cases hget : e.get_state with
    | none =>
      rw [gnu_store_registers_fail e w (-1) (by decide) (by decide) hfound hget]
      exact ⟨_, rfl, rfl, rfl⟩
    | some state =>
      rw [gnu_store_registers_all e w state hfound hget]
      refine ⟨_, rfl, ?_, ?_⟩
      · rw [store_fpregs_registers]
        exact (reconciled_all_cache w state).1
      · rw [store_fpregs_valid]
        exact (reconciled_all_cache w state).2
  · have hf : e.thread_found = false := by simpa using hfound
    refine ⟨w, ?_, rfl, rfl⟩
    unfold gnu_store_registers
    simp only [hf, if_true]
    rfl

/-! ## The floating-point state written back -/

theorem store_fpregs_initialized (e : Env) (w : World) :
    (store_fpregs e w).fpu.initialized = w.fpu.initialized := by
  unfold store_fpregs
  split_ifs <;> rfl

theorem store_fpregs_hw_state (e : Env) (w : World) (hget : e.float_get_ok = true)
    (hset : e.float_set_ok = true) :
    (store_fpregs e w).fpu.hw_state =
      convert_to_env387 w.registers w.fpu.hw_state w.registers (some w.register_valid) := by
  unfold store_fpregs
  simp only [hget, hset, Bool.true_eq_false, if_false]

/-- C12: whatever the kernel calls do, the floating-point state after
`store_fpregs` has the initialized flag the kernel held; when both calls
succeed its block is the result of `convert_to_env387` on the block read;
and `convert_to_env387` leaves every byte outside the named members as it
was: the reserved words r0, r1, r2, r3 and everything past the struct. -/
theorem C12_flag_and_reserved_words_kept (e : Env) (w : World) :
    (store_fpregs e w).fpu.initialized = w.fpu.initialized ∧
    (e.float_get_ok = true → e.float_set_ok = true →
      (store_fpregs e w).fpu.hw_state =
        convert_to_env387 w.registers w.fpu.hw_state w.registers (some w.register_valid)) ∧
    (∀ (registers ep regs : Mem) (valid : Option (Nat → Int)) (a : Nat),
      ((env387.r0 ≤ a ∧ a < env387.r0 + 2) ∨ (env387.r1 ≤ a ∧ a < env387.r1 + 2) ∨
        (env387.r2 ≤ a ∧ a < env387.r2 + 2) ∨ (env387.r3 ≤ a ∧ a < env387.r3 + 2) ∨
        env387.size ≤ a) →
      convert_to_env387 registers ep regs valid a = ep a) := by
  refine ⟨store_fpregs_initialized e w, store_fpregs_hw_state e w, ?_⟩
  intro registers ep regs valid a ha
  simp only [env387.r0, env387.r1, env387.r2, env387.r3, env387.size] at ha
  exact convert_reserved registers ep regs valid a ha

/-- C12 (witness): every entry of the cache valid, both kernel calls
succeeding; the first byte of the reserved word r0 is kept. -/
theorem C12_flag_and_reserved_words_kept_witness :
    (store_fpregs (env_ok zeroMem) snapshot_world).fpu.initialized =
      snapshot_world.fpu.initialized ∧
    (store_fpregs (env_ok zeroMem) snapshot_world).fpu.hw_state =
      convert_to_env387 snapshot_world.registers snapshot_world.fpu.hw_state
        snapshot_world.registers (some snapshot_world.register_valid) ∧
    convert_to_env387 fcs_one fp0_one fcs_one (some eax_only_mask) env387.r0 =
      fp0_one env387.r0 :=
  ⟨(C12_flag_and_reserved_words_kept (env_ok zeroMem) snapshot_world).1,
   (C12_flag_and_reserved_words_kept (env_ok zeroMem) snapshot_world).2.1 rfl rfl,
   (C12_flag_and_reserved_words_kept (env_ok zeroMem) snapshot_world).2.2 fcs_one fp0_one
      fcs_one (some eax_only_mask) env387.r0 (Or.inl ⟨le_refl _, by decide⟩)⟩

theorem load32_long_bytes (v : Nat) : load32 (long_bytes v) 0 = v % 4294967296 :=
  load32_of_long_bytes (long_bytes v) 0 v (fun j _ => by rw [Nat.zero_add])

/-- C13: for an initialized block and a successful read, `fetch_fpregs`
supplies for the code segment a `long` whose 32-bit value is the 16-bit
member code_seg, hence below 2^16, and for the opcode a `long` whose value
is the member opcode modulo 2^11, hence below 2^11; the cache entries hold
these values at their full width afterwards. -/
theorem C13_masked_fields_zero_extended (e : Env) (w : World)
    (hok : e.float_get_ok = true) (hinit : w.fpu.initialized ≠ 0) :
    (∃ l, (FCS_REGNUM, some l) ∈ fetch_fpregs_supplies w.fpu ∧
      load32 l 0 = load16 w.fpu.hw_state env387.code_seg) ∧
    (∃ l, (FOP_REGNUM, some l) ∈ fetch_fpregs_supplies w.fpu ∧
      load32 l 0 = load16 w.fpu.hw_state env387.opcode % 2 ^ 11) ∧
    load32 (fetch_fpregs e w).registers (REGISTER_BYTE FCS_REGNUM) =
      load16 w.fpu.hw_state env387.code_seg ∧
    load16 w.fpu.hw_state env387.code_seg < 2 ^ 16 ∧
    load32 (fetch_fpregs e w).registers (REGISTER_BYTE FOP_REGNUM) =
      load16 w.fpu.hw_state env387.opcode % 2 ^ 11 ∧
    load16 w.fpu.hw_state env387.opcode % 2 ^ 11 < 2 ^ 11 := by
  have h16 := load16_lt w.fpu.hw_state 16
  have h18 := load16_lt w.fpu.hw_state 18
  have hf : fetch_fpregs e w = supply_all (fetch_fpregs_supplies w.fpu) w := by
    simp [fetch_fpregs, hok]
  refine ⟨⟨long_bytes (load16 w.fpu.hw_state 16), ?_, ?_⟩,
    ⟨long_bytes (load16 w.fpu.hw_state 18 &&& ((1 <<< 11) - 1)), ?_, ?_⟩, ?_, h16, ?_, ?_⟩
  · rw [fetch_fpregs_supplies_initialized _ hinit]
    simp [FCS_REGNUM]
  · rw [load32_long_bytes]
    show load16 w.fpu.hw_state 16 % 4294967296 = load16 w.fpu.hw_state 16
    omega
  · rw [fetch_fpregs_supplies_initialized _ hinit]
    simp [FOP_REGNUM]
  · rw [load32_long_bytes, mask11]
    show load16 w.fpu.hw_state 18 % 2048 % 4294967296 = load16 w.fpu.hw_state 18 % 2048
    omega
  · rw [hf]
    show load32 _ 156 = load16 w.fpu.hw_state 16
    rw [load32_of_long_bytes _ 156 _ (fun j hj => decode_fcs _ w hinit j hj)]
    omega
  · rw [hf]
    show load32 _ 172 = load16 w.fpu.hw_state 18 % 2048
    rw [load32_of_long_bytes _ 172 _ (fun j hj => decode_fop _ w hinit j hj)]
    omega
  · show load16 w.fpu.hw_state 18 % 2048 < 2048
    omega

/-- C13 (witness): a block whose opcode member holds 0x0800; the opcode
entry of the cache is 0 afterwards. -/
theorem C13_masked_fields_zero_extended_witness :
    load32 (fetch_fpregs (env_ok zeroMem) (fresh_world opcode_high_state)).registers
        (REGISTER_BYTE FOP_REGNUM) =
      load16 (fresh_world opcode_high_state).fpu.hw_state env387.opcode % 2 ^ 11 :=
  (C13_masked_fields_zero_extended (env_ok zeroMem) (fresh_world opcode_high_state) rfl
    (by decide)).2.2.2.2.1

/-- The last two assignments of `convert_to_env387` name the global
array `registers[]`.  With the same block, the same buffer passed as
`regs` (its code-segment entry holds 1) and a null mask, a global of zero
bytes gives code segment 0 and a global equal to `regs` gives 1.  The
only call in the file, in `store_fpregs`, passes the global itself. -/
theorem code_seg_read_from_global :
    load32 fcs_one (REGISTER_BYTE FCS_REGNUM) = 1 ∧
    load16 (convert_to_env387 zeroMem zeroMem fcs_one none) env387.code_seg = 0 ∧
    load16 (convert_to_env387 fcs_one zeroMem fcs_one none) env387.code_seg = 1 := by
  decide

/-! ## What a fetch leaves in the cache -/

theorem fetched_bit_iff (x i : Nat) : x &&& (1 <<< i) ≠ 0 ↔ x.testBit i = true := by
  rw [Nat.one_shiftLeft, Nat.and_two_pow]
  cases h : x.testBit i <;> simp

theorem greg_supplies_fst (state : Mem) :
    ((List.range NUM_GREGS).map (fun i => (i, some (REG_ADDR state i)))).map Prod.fst =
      List.range NUM_GREGS := by
  rw [List.map_map]
  have hid : (Prod.fst ∘ fun i => (i, some (REG_ADDR state i))) = (id : Nat → Nat) := rfl
  rw [hid, List.map_id]

theorem fetched_gregs_valid (w : World) (state : Mem) (i : Nat) (hi : i < 16) :
    (fetched_gregs w state).register_valid i = 1 := by
  unfold fetched_gregs
  simp only
  rw [fetch_loop_eq]
  have hi' : i < NUM_GREGS := hi
  rw [supply_all_valid_in _ _ i (some (REG_ADDR state i))
    (List.mem_map.2 ⟨i, List.mem_range.2 hi', rfl⟩)
    (by rw [greg_supplies_fst]; exact List.nodup_range _)]
  rfl

theorem fetched_gregs_valid_high (w : World) (state : Mem) (r : Nat) (hr : 16 ≤ r) :
    (fetched_gregs w state).register_valid r = w.register_valid r := by
  unfold fetched_gregs
  simp only
  rw [fetch_loop_eq, supply_all_valid_out]
  rw [greg_supplies_fst, List.mem_range]
  simp only [NUM_GREGS]
  omega

theorem fetched_gregs_registers_high (w : World) (state : Mem) (a : Nat) (ha : 64 ≤ a) :
    (fetched_gregs w state).registers a = w.registers a := by
  unfold fetched_gregs
  simp only
  rw [fetch_loop_eq, supply_all_registers_out]
  intro c hc
  obtain ⟨k, hk, rfl⟩ := List.mem_map.1 hc
  have hk16 : k < 16 := List.mem_range.1 hk
  right
  show REGISTER_BYTE k + REGISTER_RAW_SIZE k ≤ a
  rw [REGISTER_BYTE_greg k hk16, REGISTER_RAW_SIZE_greg k hk16]
  omega

theorem fetched_gregs_warnings (w : World) (state : Mem) :
    (fetched_gregs w state).warnings = w.warnings := by
  unfold fetched_gregs
  simp only
  rw [fetch_loop_eq, supply_all_warnings]

theorem fetched_gregs_fetched (w : World) (state : Mem) :
    (fetched_gregs w state).thread.fetched_regs = 2 ^ 32 - 1 := rfl

theorem fetch_fpregs_supplies_ge (st : i386_float_state) :
    ∀ c ∈ fetch_fpregs_supplies st, 16 ≤ c.1 := by
  intro c hc
  by_cases h : st.initialized = 0
  · rw [fetch_fpregs_supplies_uninitialized st h] at hc
    simp only [List.mem_append, List.mem_map, List.mem_range'_1] at hc
    rcases hc with ⟨k, hk, rfl⟩ | ⟨k, hk, rfl⟩ <;> simp only <;> omega
  · rw [fetch_fpregs_supplies_initialized st h] at hc
    simp only [List.mem_cons, List.mem_singleton, List.not_mem_nil, or_false] at hc
    rcases hc with h | h | h | h | h | h | h | h | h | h | h | h | h | h | h | h <;>
      (subst h; simp only; omega)

/-- Whether its read succeeds or not, `fetch_fpregs` keeps the thread
record and the cache entries of the general registers. -/
theorem fetch_fpregs_general (e : Env) (w : World) :
    (fetch_fpregs e w).thread = w.thread ∧
    (∀ a, a < 64 → (fetch_fpregs e w).registers a = w.registers a) ∧
    (∀ r, r < 16 → (fetch_fpregs e w).register_valid r = w.register_valid r) := by
  unfold fetch_fpregs
  split_ifs
  · exact ⟨rfl, fun _ _ => rfl, fun _ _ => rfl⟩
  · refine ⟨supply_all_thread _ _, fun a ha => decode_registers_low _ _ a ha, fun r hr => ?_⟩
    apply supply_all_valid_out
    intro hmem
    obtain ⟨c, hc, rfl⟩ := List.mem_map.1 hmem
    have := fetch_fpregs_supplies_ge w.fpu c hc
    omega

/-- A successful fetch of one general register. -/
theorem gnu_fetch_registers_single (e : Env) (w : World) (r : Nat) (state : Mem)
    (hr : r < 16) (hfound : e.thread_found = true) (hget : e.get_state = some state) :
    gnu_fetch_registers e w (r : Int) =
      Outcome.returned
        { supply_register
            { w with thread := (proc_get_state w.thread false (some state)).1 } r
            (some (REG_ADDR state r)) with
          thread := { (proc_get_state w.thread false (some state)).1 with
            fetched_regs := w.thread.fetched_regs ||| (1 <<< r) } } := by
  have h1 : ((r : Int) < (NUM_GREGS : Int) ∨ (r : Int) = -1) := by
    left
    simp only [NUM_GREGS]
    omega
  have h2 : ¬ ((r : Int) = -1) := by omega
  have h3 : ¬ ((r : Int) < -1) := by omega
  have h4 : ¬ ((r : Int) ≥ (NUM_GREGS : Int) ∨ (r : Int) = -1) := by
    simp only [NUM_GREGS]
    omega
  unfold gnu_fetch_registers fetch_gregs
  simp only [hfound, Bool.true_eq_false, if_false, if_neg h3, if_pos h1, hget, proc_get_state,
    if_neg h2, if_neg h4, Int.toNat_ofNat]
  rfl

/-- A fetch of all registers whose general-register read succeeds. -/
theorem gnu_fetch_registers_all_general (e : Env) (w : World) (state : Mem)
    (hfound : e.thread_found = true) (hget : e.get_state = some state) :
    gnu_fetch_registers e w (-1) = Outcome.returned (fetch_fpregs e (fetched_gregs w state)) := by
  unfold gnu_fetch_registers
  rw [fetch_gregs_all e w state hget]
  simp [hfound]

/-- C14: when the thread is found and the general-register read yields
the block `state`, a fetch of a single general register r returns with the
cache entry of r equal to the bytes of the block at `reg_offset[r]`, r
marked valid, bit r of the fetched bitmap set and every other bit as it
was; a fetch of all registers returns with this true of every general
register and with all 32 bits of the fetched bitmap set, whether or not
the floating-point read succeeds. -/
theorem C14_fetch_general_registers (e : Env) (w : World) (state : Mem)
    (hfound : e.thread_found = true) (hget : e.get_state = some state) :
    (∀ r, r < NUM_GREGS →
      ∃ w2, gnu_fetch_registers e w (r : Int) = Outcome.returned w2 ∧
        (∀ j, j < REGISTER_RAW_SIZE r →
          w2.registers (REGISTER_BYTE r + j) = state (reg_offset r + j)) ∧
        w2.register_valid r ≠ 0 ∧
        w2.thread.fetched_regs.testBit r = true ∧
        (∀ i, i ≠ r → w2.thread.fetched_regs.testBit i = w.thread.fetched_regs.testBit i)) ∧
    (∃ w2, gnu_fetch_registers e w (-1) = Outcome.returned w2 ∧
      (∀ r, r < NUM_GREGS →
        (∀ j, j < REGISTER_RAW_SIZE r →
          w2.registers (REGISTER_BYTE r + j) = state (reg_offset r + j)) ∧
        w2.register_valid r ≠ 0 ∧ w2.thread.fetched_regs.testBit r = true) ∧
      (∀ i, i < 32 → w2.thread.fetched_regs.testBit i = true)) := by
  constructor
  · intro r hr
    have hr16 : r < 16 := hr
    rw [gnu_fetch_registers_single e w r state hr16 hfound hget]
    refine ⟨_, rfl, ?_, ?_, ?_, ?_⟩
    · intro j hj
      exact supply_register_registers_in _ r j _ hj
    · show (supply_register _ r (some (REG_ADDR state r))).register_valid r ≠ 0
      rw [supply_register_valid_same]
      simp
    · show (w.thread.fetched_regs ||| (1 <<< r)).testBit r = true
      rw [Nat.testBit_or, Nat.one_shiftLeft, Nat.testBit_two_pow_self, Bool.or_true]
    · intro i hi
      show (w.thread.fetched_regs ||| (1 <<< r)).testBit i = w.thread.fetched_regs.testBit i
      rw [Nat.testBit_or, Nat.one_shiftLeft, Nat.testBit_two_pow]
      have : decide (r = i) = false := by simpa using fun h => hi h.symm
      rw [this, Bool.or_false]
  · rw [gnu_fetch_registers_all_general e w state hfound hget]
    have hg := fetch_fpregs_general e (fetched_gregs w state)
    have hbits : ∀ i, i < 32 →
        (fetch_fpregs e (fetched_gregs w state)).thread.fetched_regs.testBit i = true := by
      intro i hi
      rw [hg.1, fetched_gregs_fetched, Nat.testBit_two_pow_sub_one]
      simpa using hi
    refine ⟨_, rfl, ?_, hbits⟩
    intro r hr
    have hr16 : r < 16 := hr
    refine ⟨?_, ?_, hbits r (by omega)⟩
    · intro j hj
      rw [REGISTER_RAW_SIZE_greg r hr16] at hj
      rw [hg.2.1 _ (by rw [REGISTER_BYTE_greg r hr16]; omega)]
      exact fetched_gregs_registers w state r j hr16 hj
    · rw [hg.2.2 r hr16, fetched_gregs_valid w state r hr16]
      decide

/-- C14 (witness): an empty cache and a block in which eax is 1; the
fetch of eax returns with a valid entry. -/
theorem C14_fetch_general_registers_witness :
    ∃ w2, gnu_fetch_registers (env_ok eax_one) (fresh_world (initialized_state zeroMem))
        ((0 : Nat) : Int) = Outcome.returned w2 ∧
      (∀ j, j < REGISTER_RAW_SIZE 0 →
        w2.registers (REGISTER_BYTE 0 + j) = eax_one (reg_offset 0 + j)) ∧
      w2.register_valid 0 ≠ 0 ∧
      w2.thread.fetched_regs.testBit 0 = true ∧
      (∀ i, i ≠ 0 → w2.thread.fetched_regs.testBit i =
        (fresh_world (initialized_state zeroMem)).thread.fetched_regs.testBit i) :=
  (C14_fetch_general_registers (env_ok eax_one) (fresh_world (initialized_state zeroMem))
    eax_one rfl rfl).1 0 (by decide)

/-! ## The floating-point state and a store of one general register -/

theorem check_world_with_fpu (regno : Int) (state : Mem) (w : World) (f : i386_float_state)
    (i : Nat) :
    check_world regno state { w with fpu := f } i =
      { check_world regno state w i with fpu := f } := by
  unfold check_world check_step
  simp only [memcpy_as_condition, if_true]
  split_ifs <;> rfl

theorem check_loop_with_fpu (regno : Int) (state : Mem) (l : List Nat) (w : World)
    (f : i386_float_state) :
    l.foldl (check_world regno state) { w with fpu := f } =
      { l.foldl (check_world regno state) w with fpu := f } := by
  induction l generalizing w with
  | nil => rfl
  | cons x l ih => rw [List.foldl_cons, List.foldl_cons, check_world_with_fpu, ih]

/-- The comparison with the old snapshot does not look at the
floating-point state. -/
theorem reconciled_with_fpu (w : World) (regno : Int) (state : Mem) (f : i386_float_state) :
    reconciled { w with fpu := f } regno state = { reconciled w regno state with fpu := f } := by
  unfold reconciled
  simp only
  split_ifs
  · rw [check_regs_eq, check_regs_eq]
    exact check_loop_with_fpu regno state _
      { w with thread := (proc_get_state w.thread true (some state)).1 } f
  · rfl

/-- C15: when the thread is found, the forced halt yields the block
`state` and r is a general register valid in the cache, the store of r
returns with the block equal to `state` outside the bytes of r, the bytes
of r equal to the cache bytes of r, and the floating-point state as it
was; with any other floating-point state and any outcome of the
floating-point calls the store does the same, carrying that state
through: the floating-point block is neither read nor written. -/
theorem C15_single_store_frame (e : Env) (w : World) (state : Mem) (r : Nat)
    (hr : r < NUM_GREGS) (hvalid : w.register_valid r ≠ 0)
    (hfound : e.thread_found = true) (hhalt : e.get_state = some state) :
    ∃ w2, gnu_store_registers e w (r : Int) = Outcome.returned w2 ∧
      (∀ j, j < REGISTER_RAW_SIZE r →
        w2.thread.state (reg_offset r + j) = w.registers (REGISTER_BYTE r + j)) ∧
      (∀ a, a < reg_offset r ∨ reg_offset r + REGISTER_RAW_SIZE r ≤ a →
        w2.thread.state a = state a) ∧
      w2.fpu = w.fpu ∧
      (∀ (f : i386_float_state) (e2 : Env), e2.thread_found = true →
        e2.get_state = some state →
        gnu_store_registers e2 { w with fpu := f } (r : Int) =
          Outcome.returned { w2 with fpu := f }) := by
  have hr16 : r < 16 := hr
  have htv := (reconciled_target w r state).2
  have htr := (reconciled_target w r state).1
  rw [gnu_store_registers_single e w r state hr16 hfound hhalt, if_neg (by rw [htv]; exact hvalid)]
  refine ⟨_, rfl, ?_, ?_, reconciled_fpu w r state, ?_⟩
  · intro j hj
    have hj4 : j < 4 := by rw [REGISTER_RAW_SIZE_greg r hr16] at hj; exact hj
    show fill _ state r (reg_offset r + j) = _
    rw [fill_apply_in _ _ _ _ hr16 hj4]
    exact htr _ (by omega) (by omega)
  · intro a ha
    rw [REGISTER_RAW_SIZE_greg r hr16] at ha
    exact fill_apply_out _ _ _ _ hr16 ha
  · intro f e2 hfound2 hhalt2
    rw [gnu_store_registers_single e2 _ r state hr16 hfound2 hhalt2, reconciled_with_fpu]
    rw [if_neg (by
      show ¬ (reconciled w r state).register_valid r = 0
      rw [htv]
      exact hvalid)]

/-- C15 (witness): every entry valid, the forced halt returns a block in
which eax is 1, and ecx is stored. -/
theorem C15_single_store_frame_witness :
    ∃ w2, gnu_store_registers (env_ok eax_one) snapshot_world ((1 : Nat) : Int) =
        Outcome.returned w2 ∧
      (∀ j, j < REGISTER_RAW_SIZE 1 →
        w2.thread.state (reg_offset 1 + j) = snapshot_world.registers (REGISTER_BYTE 1 + j)) ∧
      (∀ a, a < reg_offset 1 ∨ reg_offset 1 + REGISTER_RAW_SIZE 1 ≤ a →
        w2.thread.state a = eax_one a) ∧
      w2.fpu = snapshot_world.fpu ∧
      (∀ (f : i386_float_state) (e2 : Env), e2.thread_found = true →
        e2.get_state = some eax_one →
        gnu_store_registers e2 { snapshot_world with fpu := f } ((1 : Nat) : Int) =
          Outcome.returned { w2 with fpu := f }) :=
  C15_single_store_frame (env_ok eax_one) snapshot_world eax_one 1 (by decide) (by decide)
    rfl rfl

/-! ## A fetch of all registers with one read failing -/

/-- C11 (counterexample): the general-register read fails and the
floating-point read would succeed on an initialized block whose control
word is 1.  The fetch of all registers returns after the warning about
the general registers; the control-word entry of the cache still holds 0
and is still not valid: the floating-point half was not updated. -/
theorem C11_counterexample :
    env_no_gregs.get_state.isNone = true ∧
    env_no_gregs.float_get_ok = true ∧
    control_one_state.initialized ≠ 0 ∧
    (control_one_state.hw_state env387.control).val = 1 ∧
    (gnu_fetch_registers env_no_gregs (fresh_world control_one_state) (-1)).world?.map
        (fun w => ((w.registers (REGISTER_BYTE FCTRL_REGNUM)).val,
          w.register_valid FCTRL_REGNUM, w.warnings)) =
      some (0, 0, [Msg.couldnt_fetch_registers]) := by
  decide

/-- C11 (amended): in a fetch of all registers on a thread that is found,
when the general-register read yields the block `state` and the
floating-point read fails, the fetch returns after one warning with every
general entry of the cache equal to the bytes of the block and valid, and
with the bytes and validity of every floating-point entry as they were;
when the general-register read fails, the fetch returns after one warning
with the whole cache, bytes and validity, as it was, whatever the
floating-point read would do. -/
theorem C11_partial_fetch (e : Env) (w : World) (hfound : e.thread_found = true) :
    (∀ state, e.get_state = some state → e.float_get_ok = false →
      ∃ w2, gnu_fetch_registers e w (-1) = Outcome.returned w2 ∧
        w2.warnings = w.warnings ++ [Msg.couldnt_fetch_float] ∧
        (∀ r j, r < NUM_GREGS → j < REGISTER_RAW_SIZE r →
          w2.registers (REGISTER_BYTE r + j) = state (reg_offset r + j)) ∧
        (∀ r, r < NUM_GREGS → w2.register_valid r ≠ 0) ∧
        (∀ a, REGISTER_BYTE FP0_REGNUM ≤ a → w2.registers a = w.registers a) ∧
        (∀ r, FP0_REGNUM ≤ r → w2.register_valid r = w.register_valid r)) ∧
    (e.get_state = none →
      ∃ w2, gnu_fetch_registers e w (-1) = Outcome.returned w2 ∧
        w2.warnings = w.warnings ++ [Msg.couldnt_fetch_registers] ∧
        w2.registers = w.registers ∧ w2.register_valid = w.register_valid) := by
  constructor
  · intro state hget hfloat
    rw [gnu_fetch_registers_all_general e w state hfound hget]
    have hf : fetch_fpregs e (fetched_gregs w state) =
        warning (fetched_gregs w state) Msg.couldnt_fetch_float := by
      simp [fetch_fpregs, hfloat]
    rw [hf]
    refine ⟨_, rfl, ?_, ?_, ?_, ?_, ?_⟩
    · show (fetched_gregs w state).warnings ++ _ = _
      rw [fetched_gregs_warnings]
    · intro r j hr hj
      have hr16 : r < 16 := hr
      rw [REGISTER_RAW_SIZE_greg r hr16] at hj
      exact fetched_gregs_registers w state r j hr16 hj
    · intro r hr
      show (fetched_gregs w state).register_valid r ≠ 0
      rw [fetched_gregs_valid w state r hr]
      decide
    · intro a ha
      exact fetched_gregs_registers_high w state a ha
    · intro r hr
      exact fetched_gregs_valid_high w state r hr
  · intro hget
    rw [gnu_fetch_registers_fail e w (-1) (by decide) (by decide) hfound hget]
    exact ⟨_, rfl, rfl, rfl, rfl⟩

/-- C11 (witness): the general-register read yields a block in which eax
is 1 and the floating-point read fails. -/
theorem C11_partial_fetch_witness :
    ∃ w2, gnu_fetch_registers (env_no_float eax_one) (fresh_world control_one_state) (-1) =
        Outcome.returned w2 ∧
      w2.warnings = (fresh_world control_one_state).warnings ++ [Msg.couldnt_fetch_float] ∧
      (∀ r j, r < NUM_GREGS → j < REGISTER_RAW_SIZE r →
        w2.registers (REGISTER_BYTE r + j) = eax_one (reg_offset r + j)) ∧
      (∀ r, r < NUM_GREGS → w2.register_valid r ≠ 0) ∧
      (∀ a, REGISTER_BYTE FP0_REGNUM ≤ a →
        w2.registers a = (fresh_world control_one_state).registers a) ∧
      (∀ r, FP0_REGNUM ≤ r →
        w2.register_valid r = (fresh_world control_one_state).register_valid r) :=
  (C11_partial_fetch (env_no_float eax_one) (fresh_world control_one_state) rfl).1
    eax_one rfl rfl

/-! ## A store of one floating-point register -/

theorem assign16_of_not_ok (valid : Option (Nat → Int)) (ep : Mem) (m r v : Nat)
    (h : mask_ok valid r = false) : assign16 valid ep m r v = ep := by
  unfold assign16
  rw [h]
  rfl

/-- With the code-segment entry masked out, the member code_seg is kept. -/
theorem convert_code_seg_kept (registers ep regs : Mem) (valid : Option (Nat → Int)) (a : Nat)
    (hm : mask_ok valid 27 = false) (h1 : 16 ≤ a) (h2 : a < 18) :
    convert_to_env387 registers ep regs valid a = ep a := by
  unfold convert_to_env387
  simp only [env387.control, env387.status, env387.tag, env387.eip, env387.operand,
    env387.operand_seg, env387.code_seg, env387.opcode, FCTRL_REGNUM, FSTAT_REGNUM,
    FTAG_REGNUM, FCOFF_REGNUM, FDOFF_REGNUM, FDS_REGNUM, FCS_REGNUM, FOP_REGNUM]
  rw [assign16_apply_out _ _ _ _ _ _ (by omega), assign16_of_not_ok _ _ 16 27 _ hm,
    fill387_apply_out _ _ _ _ _ _ _ (by omega), fill387_apply_out _ _ _ _ _ _ _ (by omega), fill387_apply_out _ _ _ _ _ _ _ (by omega), fill387_apply_out _ _ _ _ _ _ _ (by omega), fill387_apply_out _ _ _ _ _ _ _ (by omega), fill387_apply_out _ _ _ _ _ _ _ (by omega), stack_loop_low _ _ _ _ (by omega)]

/-- With the opcode entry masked out, the member opcode is kept. -/
theorem convert_opcode_kept (registers ep regs : Mem) (valid : Option (Nat → Int)) (a : Nat)
    (hm : mask_ok valid 31 = false) (h1 : 18 ≤ a) (h2 : a < 20) :
    convert_to_env387 registers ep regs valid a = ep a := by
  unfold convert_to_env387
  simp only [env387.control, env387.status, env387.tag, env387.eip, env387.operand,
    env387.operand_seg, env387.code_seg, env387.opcode, FCTRL_REGNUM, FSTAT_REGNUM,
    FTAG_REGNUM, FCOFF_REGNUM, FDOFF_REGNUM, FDS_REGNUM, FCS_REGNUM, FOP_REGNUM]
  rw [assign16_of_not_ok _ _ 18 31 _ hm, assign16_apply_out _ _ _ _ _ _ (by omega),
    fill387_apply_out _ _ _ _ _ _ _ (by omega), fill387_apply_out _ _ _ _ _ _ _ (by omega), fill387_apply_out _ _ _ _ _ _ _ (by omega), fill387_apply_out _ _ _ _ _ _ _ (by omega), fill387_apply_out _ _ _ _ _ _ _ (by omega), fill387_apply_out _ _ _ _ _ _ _ (by omega), stack_loop_low _ _ _ _ (by omega)]

/-- A control pseudo-register that the mask leaves out has its member of
the block kept. -/
theorem convert_member_kept (registers ep regs : Mem) (valid : Option (Nat → Int))
    (r a : Nat) (h1 : 24 ≤ r) (h2 : r ≤ 31) (hm : mask_ok valid r = false)
    (ha1 : (env387.member r).1 ≤ a) (ha2 : a < (env387.member r).1 + (env387.member r).2) :
    convert_to_env387 registers ep regs valid a = ep a := by
  interval_cases r
  · have e1 : (env387.member 24).1 = 0 := by decide
    have e2 : (env387.member 24).2 = 2 := by decide
    rw [e1] at ha1 ha2
    rw [e2] at ha2
    rw [convert_control _ _ _ _ a ha1 (by omega), hm]
    rfl
  · have e1 : (env387.member 25).1 = 4 := by decide
    have e2 : (env387.member 25).2 = 2 := by decide
    rw [e1] at ha1 ha2
    rw [e2] at ha2
    rw [convert_status _ _ _ _ a ha1 (by omega), hm]
    rfl
  · have e1 : (env387.member 26).1 = 8 := by decide
    have e2 : (env387.member 26).2 = 2 := by decide
    rw [e1] at ha1 ha2
    rw [e2] at ha2
    rw [convert_tag _ _ _ _ a ha1 (by omega), hm]
    rfl
  · have e1 : (env387.member 27).1 = 16 := by decide
    have e2 : (env387.member 27).2 = 2 := by decide
    rw [e1] at ha1 ha2
    rw [e2] at ha2
    exact convert_code_seg_kept _ _ _ _ a hm ha1 (by omega)
  · have e1 : (env387.member 28).1 = 12 := by decide
    have e2 : (env387.member 28).2 = 4 := by decide
    rw [e1] at ha1 ha2
    rw [e2] at ha2
    rw [convert_eip _ _ _ _ a ha1 (by omega), hm]
    rfl
  · have e1 : (env387.member 29).1 = 24 := by decide
    have e2 : (env387.member 29).2 = 2 := by decide
    rw [e1] at ha1 ha2
    rw [e2] at ha2
    rw [convert_operand_seg _ _ _ _ a ha1 (by omega), hm]
    rfl
  · have e1 : (env387.member 30).1 = 20 := by decide
    have e2 : (env387.member 30).2 = 4 := by decide
    rw [e1] at ha1 ha2
    rw [e2] at ha2
    rw [convert_operand _ _ _ _ a ha1 (by omega), hm]
    rfl
  · have e1 : (env387.member 31).1 = 18 := by decide
    have e2 : (env387.member 31).2 = 2 := by decide
    rw [e1] at ha1 ha2
    rw [e2] at ha2
    exact convert_opcode_kept _ _ _ _ a hm ha1 (by omega)

theorem mask_ok_some_of_invalid (valid : Nat → Int) (r : Nat) (h : valid r = 0) :
    mask_ok (some valid) r = false := by
  simp [mask_ok, h]

/-- The floating-point state after `store_fpregs` is either the one the
kernel held or the one with the converted block. -/
theorem store_fpregs_fpu_cases (e : Env) (w : World) :
    (store_fpregs e w).fpu = w.fpu ∨
    (store_fpregs e w).fpu.hw_state =
      convert_to_env387 w.registers w.fpu.hw_state w.registers (some w.register_valid) := by
  unfold store_fpregs
  split_ifs
  · exact Or.inl rfl
  · exact Or.inl rfl
  · exact Or.inr rfl

/-- A store of a single index at or above the general registers skips the
general-register branch, and with it the assertion. -/
theorem gnu_store_registers_float (e : Env) (w : World) (r : Nat) (hr : 16 ≤ r)
    (hfound : e.thread_found = true) :
    gnu_store_registers e w (r : Int) = Outcome.returned (store_fpregs e w) := by
  have h1 : ¬ ((r : Int) < -1) := by omega
  have h2 : ¬ ((r : Int) < (NUM_GREGS : Int) ∨ (r : Int) = -1) := by
    simp only [NUM_GREGS]
    omega
  have h3 : ((r : Int) ≥ (NUM_GREGS : Int) ∨ (r : Int) = -1) := by
    left
    simp only [NUM_GREGS]
    omega
  unfold gnu_store_registers store_gregs
  simp only [hfound, Bool.true_eq_false, if_false, if_neg h1, if_neg h2, if_pos h3]

/-- C9 (amended): on a thread that is found, (1) for a general-register
index whose cache entry is not marked valid, when the forced halt
succeeds, the store fails in the assertion, the general block is the one
the forced halt returned and the floating-point state is the one the
kernel held: nothing from the cache was written to either; (2) for an
index at or above NUM_GREGS no assertion is made: the store returns with
the thread record, hence the general block, and the cache as they were,
and when the index is a control pseudo-register (first to last) whose
cache entry is not marked valid, the member of the floating-point block
that belongs to it is left as the kernel held it. -/
theorem C9_invalid_entry_store (e : Env) (w : World) (hfound : e.thread_found = true) :
    (∀ (state : Mem) (r : Nat), r < NUM_GREGS → w.register_valid r = 0 →
      e.get_state = some state →
      ∃ w2, gnu_store_registers e w (r : Int) = Outcome.assertion_failed w2 ∧
        w2.thread.state = state ∧ w2.fpu = w.fpu) ∧
    (∀ r : Nat, NUM_GREGS ≤ r →
      ∃ w2, gnu_store_registers e w (r : Int) = Outcome.returned w2 ∧
        w2.thread = w.thread ∧ w2.registers = w.registers ∧
        w2.register_valid = w.register_valid ∧
        (FIRST_FPU_CTRL_REGNUM ≤ r → r ≤ LAST_FPU_CTRL_REGNUM → w.register_valid r = 0 →
          ∀ a, (env387.member r).1 ≤ a → a < (env387.member r).1 + (env387.member r).2 →
            w2.fpu.hw_state a = w.fpu.hw_state a)) := by
  constructor
  · intro state r hr hinv hhalt
    have htv := (reconciled_target w r state).2
    rw [gnu_store_registers_single e w r state hr hfound hhalt,
      if_pos (by rw [htv]; exact hinv)]
    refine ⟨_, rfl, ?_, reconciled_fpu w r state⟩
    rw [reconciled_thread]
    rfl
  · intro r hr
    have hr16 : 16 ≤ r := hr
    rw [gnu_store_registers_float e w r hr16 hfound]
    refine ⟨_, rfl, store_fpregs_thread e w, store_fpregs_registers e w,
      store_fpregs_valid e w, ?_⟩
    intro h1 h2 hinv a ha1 ha2
    rcases store_fpregs_fpu_cases e w with h | h
    · rw [h]
    · rw [h]
      exact convert_member_kept _ _ _ _ r a h1 h2 (mask_ok_some_of_invalid _ r hinv) ha1 ha2

/-- C9 (witness): an empty cache; a store of eax fails in the assertion
with the block as the forced halt returned it, and a store of the control
word returns with the member control of the block as it was. -/
theorem C9_invalid_entry_store_witness :
    (∃ w2, gnu_store_registers (env_ok eax_one) (fresh_world control_one_state)
        ((0 : Nat) : Int) = Outcome.assertion_failed w2 ∧
      w2.thread.state = eax_one ∧ w2.fpu = (fresh_world control_one_state).fpu) ∧
    (∃ w2, gnu_store_registers (env_ok eax_one) (fresh_world control_one_state)
        ((FCTRL_REGNUM : Nat) : Int) = Outcome.returned w2 ∧
      w2.fpu.hw_state env387.control = (fresh_world control_one_state).fpu.hw_state
        env387.control) := by
  have h := C9_invalid_entry_store (env_ok eax_one) (fresh_world control_one_state) rfl
  refine ⟨h.1 eax_one 0 (by decide) rfl rfl, ?_⟩
  obtain ⟨w2, h1, _, _, _, h5⟩ := h.2 FCTRL_REGNUM (by decide)
  exact ⟨w2, h1, h5 (by decide) (by decide) rfl env387.control (by decide) (by decide)⟩

/-! ## What convert_to_env387 depends on -/

end I386GnuNat
